import Mathlib

/-!
Verification of the four-stage search cascade (inverted index, BM25 scorer,
vector re-ranker, personalization re-ranker).

Modelling conventions:
* JS `Map` is an insertion-ordered association list: `set` replaces a present
  key in place and appends an absent key at the end; `get` returns the value
  of the first matching key; `delete` removes it.
* JS `Set<string>` is a `List String` where `add` appends when absent and
  `delete` erases the element.
* JS numbers are rationals (`ℚ`); transcendental helpers used by the code
  (`Math.log`, `Math.sqrt`, the haversine distance) are passed in as explicit
  function parameters, since every verified property is independent of their
  analytic values.
* The shared tokenizer (`tokenizeAndNormalize`, identical in stage 1 and
  stage 2) is passed in as an explicit parameter `tok : String → List String`;
  all verified properties hold for every deterministic tokenizer.
* Wall-clock quantities (`Date.now()` execution timings) are modelled as `0`;
  the current hour / day-of-week / epoch milliseconds read by the stage-4
  temporal boosts are passed in explicitly as a `TimeCtx`.
-/

set_option maxHeartbeats 1000000
set_option maxRecDepth 4000

namespace SearchSpec

/-! ### Association-list maps and sets (JS `Map` / `Set`) -/

def mapGet {α : Type} (m : List (String × α)) (k : String) : Option α :=
  match m with
  | [] => none
  | (k', v) :: rest => if k' = k then some v else mapGet rest k

def mapSet {α : Type} (m : List (String × α)) (k : String) (v : α) :
    List (String × α) :=
  match m with
  | [] => [(k, v)]
  | (k', v') :: rest =>
      if k' = k then (k, v) :: rest else (k', v') :: mapSet rest k v

def mapDelete {α : Type} (m : List (String × α)) (k : String) :
    List (String × α) :=
  match m with
  | [] => []
  | (k', v') :: rest =>
      if k' = k then rest else (k', v') :: mapDelete rest k

def mapKeys {α : Type} (m : List (String × α)) : List String :=
  m.map Prod.fst

def setAdd (s : List String) (x : String) : List String :=
  if x ∈ s then s else s ++ [x]

theorem mapGet_mapSet_self {α : Type} (m : List (String × α)) (k : String)
    (v : α) : mapGet (mapSet m k v) k = some v := by
  induction m with
  | nil => simp [mapGet, mapSet]
  | cons p rest ih =>
      obtain ⟨k', v'⟩ := p
      by_cases h : k' = k <;> simp [mapGet, mapSet, h, ih]

theorem mapGet_mapSet_ne {α : Type} (m : List (String × α)) {k w : String}
    (v : α) (h : k ≠ w) : mapGet (mapSet m k v) w = mapGet m w := by
  induction m with
  | nil => simp [mapGet, mapSet, h]
  | cons p rest ih =>
      obtain ⟨k', v'⟩ := p
      by_cases hk : k' = k
      · subst hk; simp [mapGet, mapSet, h]
      · simp [mapGet, mapSet, hk, ih]

theorem mapGet_eq_none_of_not_mem {α : Type} {m : List (String × α)}
    {k : String} (h : k ∉ mapKeys m) : mapGet m k = none := by
  induction m with
  | nil => rfl
  | cons p rest ih =>
      obtain ⟨k', v'⟩ := p
      simp only [mapKeys, List.map_cons, List.mem_cons] at h
      push_neg at h
      have hk : ¬ k' = k := fun hh => h.1 hh.symm
      simp [mapGet, hk, ih (by
        intro hm; exact h.2 (by simpa [mapKeys] using hm))]

theorem mapDelete_mapSet {α : Type} (m : List (String × α)) {k : String}
    (v : α) (h : k ∉ mapKeys m) : mapDelete (mapSet m k v) k = m := by
  induction m with
  | nil => simp [mapSet, mapDelete]
  | cons p rest ih =>
      obtain ⟨k', v'⟩ := p
      simp only [mapKeys, List.map_cons, List.mem_cons] at h
      push_neg at h
      have hk : k' ≠ k := fun hh => h.1 hh.symm
      simp [mapSet, mapDelete, hk, ih (by
        intro hm; exact h.2 (by simpa [mapKeys] using hm))]

theorem mapSet_mapSet_self {α : Type} (m : List (String × α)) (k : String)
    (v w : α) : mapSet (mapSet m k v) k w = mapSet m k w := by
  induction m with
  | nil => simp [mapSet]
  | cons p rest ih =>
      obtain ⟨k', v'⟩ := p
      by_cases h : k' = k <;> simp [mapSet, h, ih]

theorem mapSet_eq_self {α : Type} {m : List (String × α)} {k : String}
    {v : α} (h : mapGet m k = some v) : mapSet m k v = m := by
  induction m with
  | nil => simp [mapGet] at h
  | cons p rest ih =>
      obtain ⟨k', v'⟩ := p
      by_cases hk : k' = k
      · subst hk
        have hv : v' = v := by simpa [mapGet] using h
        simp [mapSet, hv]
      · simp only [mapGet, if_neg hk] at h
        simp [mapSet, hk, ih h]

theorem mapKeys_mapSet_of_mem {α : Type} {m : List (String × α)}
    {k : String} (v : α) (h : mapGet m k ≠ none) :
    mapKeys (mapSet m k v) = mapKeys m := by
  induction m with
  | nil => simp [mapGet] at h
  | cons p rest ih =>
      obtain ⟨k', v'⟩ := p
      by_cases hk : k' = k
      · subst hk; simp [mapSet, mapKeys]
      · simp only [mapGet, if_neg hk] at h
        simp [mapSet, mapKeys, hk] at ih ⊢
        exact ih h

theorem mapGet_mapDelete_self {α : Type} {m : List (String × α)}
    (hnd : (mapKeys m).Nodup) (k : String) :
    mapGet (mapDelete m k) k = none := by
  induction m with
  | nil => rfl
  | cons p rest ih =>
      obtain ⟨k', v'⟩ := p
      simp only [mapKeys, List.map_cons, List.nodup_cons] at hnd
      by_cases hk : k' = k
      · subst hk
        simp only [mapDelete, if_pos rfl]
        exact mapGet_eq_none_of_not_mem hnd.1
      · simp [mapDelete, mapGet, hk, ih hnd.2]

theorem erase_setAdd {s : List String} {x : String} (h : x ∉ s) :
    (setAdd s x).erase x = s := by
  unfold setAdd
  rw [if_neg h]
  induction s with
  | nil => simp
  | cons a as ih =>
      simp only [List.mem_cons] at h
      push_neg at h
      simp [List.erase_cons, List.cons_append,
        (by simpa using (h.1 ∘ Eq.symm) : ¬ a = x), ih h.2]

/-! ### Stable descending insertion sort — the model of JS
`Array.prototype.sort((a, b) => b.score - a.score)` (stable, descending). -/

def insertDesc {α : Type} (key : α → ℚ) (r : α) : List α → List α
  | [] => [r]
  | x :: xs => if key x ≤ key r then r :: x :: xs else x :: insertDesc key r xs

def sortDesc {α : Type} (key : α → ℚ) : List α → List α
  | [] => []
  | x :: xs => insertDesc key x (sortDesc key xs)

def SortedDesc {α : Type} (key : α → ℚ) (l : List α) : Prop :=
  List.Chain' (fun a b => key b ≤ key a) l

theorem mem_insertDesc {α : Type} (key : α → ℚ) (r a : α) (l : List α) :
    a ∈ insertDesc key r l ↔ a = r ∨ a ∈ l := by
  induction l with
  | nil => simp [insertDesc]
  | cons x xs ih =>
      by_cases h : key x ≤ key r
      · simp [insertDesc, h]
      · simp [insertDesc, h, ih]
        tauto

theorem mem_sortDesc {α : Type} (key : α → ℚ) (a : α) (l : List α) :
    a ∈ sortDesc key l ↔ a ∈ l := by
  induction l with
  | nil => simp [sortDesc]
  | cons x xs ih => simp [sortDesc, mem_insertDesc, ih]

theorem map_insertDesc {α β : Type} (key : α → ℚ) (key' : β → ℚ)
    (f : α → β) (hkey : ∀ x, key' (f x) = key x) (r : α) (l : List α) :
    (insertDesc key r l).map f = insertDesc key' (f r) (l.map f) := by
  induction l with
  | nil => simp [insertDesc]
  | cons x xs ih =>
      by_cases h : key x ≤ key r
      · simp [insertDesc, h, hkey]
      · simp [insertDesc, h, hkey, ih]

theorem map_sortDesc {α β : Type} (key : α → ℚ) (key' : β → ℚ)
    (f : α → β) (hkey : ∀ x, key' (f x) = key x) (l : List α) :
    (sortDesc key l).map f = sortDesc key' (l.map f) := by
  induction l with
  | nil => simp [sortDesc]
  | cons x xs ih =>
      simp [sortDesc, map_insertDesc key key' f hkey, ih]

theorem sortDesc_eq_self {α : Type} (key : α → ℚ) {l : List α}
    (h : SortedDesc key l) : sortDesc key l = l := by
  induction l with
  | nil => rfl
  | cons x xs ih =>
      have htail : SortedDesc key xs := (List.chain'_cons'.mp h).2
      have := ih htail
      simp only [sortDesc, this]
      cases xs with
      | nil => rfl
      | cons y ys =>
          have hxy : key y ≤ key x := (List.chain'_cons.mp h).1
          simp [insertDesc, hxy]

/-! ### Data model (`src/types/index.ts`) -/

/-- The documented keys of the free-form `Record<string, any>` metadata
(design note §9 of the spec: model the untyped map as a record of the
documented keys).  Used both for `Document.metadata` and, augmented with the
scoring fields the stages write, for `SearchResult.metadata`. -/
structure MetaRec where
  category : Option String := none
  createdAt : Option Int := none
  ageGroup : Option String := none
  tags : Option (List String) := none
  location : Option (ℚ × ℚ) := none
  mobileOptimized : Bool := false
  desktopOptimized : Bool := false
  bm25Score : Option ℚ := none
  termScores : List (String × ℚ) := []
  documentLength : Option Nat := none
  vectorSimilarity : Option ℚ := none
  combinedScore : Option ℚ := none
  personalizationBoost : Option ℚ := none
  userRelevance : Option ℚ := none
  contextBoost : Option ℚ := none
  contextualRelevance : Option ℚ := none
  temporalBoost : Option ℚ := none
  temporalRelevance : Option ℚ := none
  deriving DecidableEq, Repr

structure Document where
  id : String
  title : String
  content : String
  url : Option String := none
  category : Option String := none
  tags : List String := []
  createdAt : Int := 0
  updatedAt : Int := 0
  metadata : MetaRec := {}
  deriving DecidableEq, Repr

structure SearchResult where
  id : String
  title : String
  content : String
  url : Option String := none
  score : ℚ
  metadata : MetaRec := {}
  deriving DecidableEq, Repr

structure SearchContext where
  location : Option (ℚ × ℚ) := none
  device : Option String := none
  sessionId : Option String := none
  previousQueries : List String := []
  deriving DecidableEq, Repr

structure SearchRequest where
  query : String
  userId : Option String := none
  limit : Option Nat := none
  context : Option SearchContext := none
  deriving DecidableEq, Repr

structure Layer1Result where
  documentIds : List String
  totalCount : Nat
  executionTime : ℚ := 0
  deriving DecidableEq, Repr

structure Layer2Result where
  results : List SearchResult
  totalCount : Nat
  executionTime : ℚ := 0
  deriving DecidableEq, Repr

structure Layer3Result where
  results : List SearchResult
  totalCount : Nat
  executionTime : ℚ := 0
  vectorScores : List ℚ := []
  deriving DecidableEq, Repr

structure Layer4Result where
  results : List SearchResult
  totalCount : Nat
  executionTime : ℚ := 0
  personalizationScore : ℚ := 0
  deriving DecidableEq, Repr

/-- Per-stage result caps (`config/index.ts` defaults). -/
def maxResultsLayer1 : Nat := 10000

def maxResultsLayer2 : Nat := 1000

def maxResultsLayer3 : Nat := 100

def maxFinalResults : Nat := 20

/-- Personalization weights (`config/index.ts` defaults). -/
def userProfileWeight : ℚ := 3 / 10

def contextWeight : ℚ := 1 / 5

def temporalWeight : ℚ := 1 / 10

/-! ### Stage 1: `Layer1InvertedIndex` (`layer1-inverted-index.ts`) -/

structure InvertedIndexEntry where
  term : String
  documentIds : List String
  termFrequency : List (String × Nat)
  documentFrequency : Nat
  deriving DecidableEq, Repr

structure Layer1State where
  index : List (String × InvertedIndexEntry)
  documentCount : Int
  totalTerms : Int
  documents : List (String × Document)
  deriving DecidableEq, Repr

def emptyL1 : Layer1State := ⟨[], 0, 0, []⟩

/-- Tokens of a document as stage 1 computes them: title tokens followed by
content tokens. -/
def docTokensL1 (tok : String → List String) (d : Document) : List String :=
  tok d.title ++ tok d.content

/-- Body of the `allTokens.forEach` loop of `addDocument`: ensure an entry
exists for the token, add the id to its id set, bump its term frequency, and
refresh the document frequency. -/
def l1AddStep (docId t : String) (idx : List (String × InvertedIndexEntry)) :
    List (String × InvertedIndexEntry) :=
  let idx1 := if (mapGet idx t).isSome then idx
    else mapSet idx t ⟨t, [], [], 0⟩
  match mapGet idx1 t with
  | some e =>
      let ids := setAdd e.documentIds docId
      let tf := mapSet e.termFrequency docId
        ((mapGet e.termFrequency docId).getD 0 + 1)
      mapSet idx1 t { e with documentIds := ids, termFrequency := tf,
                             documentFrequency := ids.length }
  | none => idx1

def addDocumentL1 (tok : String → List String) (st : Layer1State)
    (d : Document) : Layer1State :=
  let allTokens := docTokensL1 tok d
  { index := allTokens.foldl (fun idx t => l1AddStep d.id t idx) st.index
    documentCount := st.documentCount + 1
    totalTerms := st.totalTerms + allTokens.length
    documents := mapSet st.documents d.id d }

/-- Body of the `allTokens.forEach` loop of `removeDocument`: drop the id from
the entry, refresh the document frequency, and delete the entry when its id
set becomes empty. -/
def l1RemoveStep (docId t : String)
    (idx : List (String × InvertedIndexEntry)) :
    List (String × InvertedIndexEntry) :=
  match mapGet idx t with
  | none => idx
  | some e =>
      if (e.documentIds.erase docId).length = 0 then mapDelete idx t
      else mapSet idx t { e with
        documentIds := e.documentIds.erase docId
        termFrequency := mapDelete e.termFrequency docId
        documentFrequency := (e.documentIds.erase docId).length }

def removeDocumentL1 (tok : String → List String) (st : Layer1State)
    (docId : String) : Bool × Layer1State :=
  match mapGet st.documents docId with
  | none => (false, st)
  | some document =>
      let allTokens := docTokensL1 tok document
      (true,
        { index := allTokens.foldl (fun idx t => l1RemoveStep docId t idx)
            st.index
          documentCount := st.documentCount - 1
          totalTerms := st.totalTerms
          documents := mapDelete st.documents docId })

/-- Posting list of a term: the id set of its index entry, `[]` when the term
has no entry. -/
def postings (idx : List (String × InvertedIndexEntry)) (t : String) :
    List String :=
  ((mapGet idx t).map InvertedIndexEntry.documentIds).getD []

/-- Candidate search (`Layer1InvertedIndex.search`): union of the posting
lists of all query tokens, truncated to `maxResultsLayer1`. -/
def unionDocuments (idx : List (String × InvertedIndexEntry))
    (tokens : List String) : List String :=
  tokens.foldl (fun acc t => (postings idx t).foldl setAdd acc) []

def layer1search (tok : String → List String) (st : Layer1State)
    (query : String) : Layer1Result :=
  let queryTokens := tok query
  if queryTokens = [] then ⟨[], 0, 0⟩
  else
    let candidates := unionDocuments st.index queryTokens
    ⟨candidates.take maxResultsLayer1, candidates.length, 0⟩

def intersectGo (idx : List (String × InvertedIndexEntry)) :
    List String → List String → List String
  | [], cur => cur
  | t :: ts, cur =>
      match mapGet idx t with
      | some e => intersectGo idx ts
          (cur.filter (fun docId => e.documentIds.contains docId))
      | none => []

def intersectDocuments (idx : List (String × InvertedIndexEntry))
    (tokens : List String) : List String :=
  match tokens with
  | [] => []
  | t0 :: rest => intersectGo idx rest (postings idx t0)

/-- First-occurrence deduplication, modelling `new Set(list)` iteration
order. -/
def uniq : List String → List String
  | [] => []
  | x :: xs => x :: (uniq xs).filter (fun y => y ≠ x)

def excludeDocuments (documents : List (String × Document))
    (idx : List (String × InvertedIndexEntry)) (tokens : List String) :
    List String :=
  let allDocuments := uniq (mapKeys documents)
  let excluded := unionDocuments idx tokens
  allDocuments.filter (fun docId => ¬ excluded.contains docId)

inductive BoolOperator | opAND | opOR | opNOT
  deriving DecidableEq, Repr

def booleanResultSet (st : Layer1State) (queryTokens : List String) :
    BoolOperator → List String
  | .opAND => intersectDocuments st.index queryTokens
  | .opOR => unionDocuments st.index queryTokens
  | .opNOT => excludeDocuments st.documents st.index queryTokens

def booleanSearch (tok : String → List String) (st : Layer1State)
    (query : String) (op : BoolOperator) : Layer1Result :=
  let queryTokens := tok query
  if queryTokens = [] then ⟨[], 0, 0⟩
  else
    let resultDocuments := booleanResultSet st queryTokens op
    ⟨resultDocuments.take maxResultsLayer1, resultDocuments.length, 0⟩

structure L1Stats where
  totalDocuments : Int
  totalTerms : Int
  uniqueTerms : Nat
  averageTermsPerDocument : ℚ
  deriving DecidableEq, Repr

def getIndexStats (st : Layer1State) : L1Stats :=
  ⟨st.documentCount, st.totalTerms, st.index.length,
    if 0 < st.documentCount then (st.totalTerms : ℚ) / (st.documentCount : ℚ)
    else 0⟩

/-! ### Stage 2: `Layer2BM25` (`layer2-bm25.ts`)

`Math.log` is passed in as `lnQ : ℚ → ℚ`; every property below holds for an
arbitrary interpretation of the logarithm. -/

structure Layer2State where
  documents : List (String × Document)
  documentLengths : List (String × Nat)
  averageDocumentLength : ℚ
  termDocumentFrequency : List (String × Nat)
  totalDocuments : Int
  k1 : ℚ
  b : ℚ
  deriving DecidableEq, Repr

/-- Fresh `Layer2BM25` state with the default parameters k1 = 1.2, b = 0.75. -/
def emptyL2 : Layer2State := ⟨[], [], 0, [], 0, 6 / 5, 3 / 4⟩

/-- Stage-2 tokenization of a document: `title + " " + content`. -/
def docTokensL2 (tok : String → List String) (d : Document) : List String :=
  tok (d.title ++ " " ++ d.content)

def recomputeAverage (lengths : List (String × Nat)) (total : Int) : ℚ :=
  if total = 0 then 0
  else ((lengths.map (fun p => (p.2 : ℚ))).sum) / (total : ℚ)

def addDocumentL2 (tok : String → List String) (st : Layer2State)
    (d : Document) : Layer2State :=
  let tokens := docTokensL2 tok d
  let documents := mapSet st.documents d.id d
  let documentLengths := mapSet st.documentLengths d.id tokens.length
  let totalDocuments := st.totalDocuments + 1
  { documents := documents
    documentLengths := documentLengths
    averageDocumentLength := recomputeAverage documentLengths totalDocuments
    termDocumentFrequency := (uniq tokens).foldl
      (fun m t => mapSet m t ((mapGet m t).getD 0 + 1))
      st.termDocumentFrequency
    totalDocuments := totalDocuments
    k1 := st.k1
    b := st.b }

/-- Body of the `uniqueTokens.forEach` loop of stage-2 `removeDocument`:
decrement the document frequency, deleting the entry when it reaches zero. -/
def l2DfRemoveStep (m : List (String × Nat)) (t : String) :
    List (String × Nat) :=
  let currentDf := (mapGet m t).getD 0
  if 1 < currentDf then mapSet m t (currentDf - 1) else mapDelete m t

def removeDocumentL2 (tok : String → List String) (st : Layer2State)
    (docId : String) : Bool × Layer2State :=
  match mapGet st.documents docId with
  | none => (false, st)
  | some document =>
      let tokens := docTokensL2 tok document
      let termDocumentFrequency := (uniq tokens).foldl l2DfRemoveStep
        st.termDocumentFrequency
      let documents := mapDelete st.documents docId
      let documentLengths := mapDelete st.documentLengths docId
      let totalDocuments := st.totalDocuments - 1
      (true,
        { documents := documents
          documentLengths := documentLengths
          averageDocumentLength :=
            recomputeAverage documentLengths totalDocuments
          termDocumentFrequency := termDocumentFrequency
          totalDocuments := totalDocuments
          k1 := st.k1
          b := st.b })

/-- `getTermFrequency`: re-tokenize the stored document and count the term. -/
def getTermFrequency (tok : String → List String) (st : Layer2State)
    (term docId : String) : Nat :=
  match mapGet st.documents docId with
  | none => 0
  | some document => (docTokensL2 tok document).count term

structure BM25Score where
  documentId : String
  score : ℚ
  termScores : List (String × ℚ)
  deriving DecidableEq, Repr

/-- One query-term step of the BM25 scoring loop, acting on the accumulated
(total score, per-term breakdown) pair. -/
def bm25TermStep (lnQ : ℚ → ℚ) (tok : String → List String)
    (st : Layer2State) (documentLength : ℚ) (docId : String)
    (acc : ℚ × List (String × ℚ)) (term : String) : ℚ × List (String × ℚ) :=
  let tf := getTermFrequency tok st term docId
  let df := (mapGet st.termDocumentFrequency term).getD 0
  if 0 < tf ∧ 0 < df then
    let idf := lnQ (((st.totalDocuments : ℚ) - (df : ℚ) + 1 / 2) /
      ((df : ℚ) + 1 / 2))
    let numerator := (tf : ℚ) * (st.k1 + 1)
    let denominator := (tf : ℚ) + st.k1 *
      (1 - st.b + st.b * (documentLength / st.averageDocumentLength))
    let termScore := idf * (numerator / denominator)
    (acc.1 + termScore, mapSet acc.2 term termScore)
  else acc

def calculateBM25Scores (lnQ : ℚ → ℚ) (tok : String → List String)
    (st : Layer2State) (queryTokens : List String) :
    List String → List BM25Score
  | [] => []
  | docId :: rest =>
      let documentLength := ((mapGet st.documentLengths docId).getD 0 : ℚ)
      let scored := queryTokens.foldl
        (bm25TermStep lnQ tok st documentLength docId) (0, [])
      if 0 < scored.1 then
        ⟨docId, scored.1, scored.2⟩ ::
          calculateBM25Scores lnQ tok st queryTokens rest
      else calculateBM25Scores lnQ tok st queryTokens rest

def truncateContent (content : String) (maxLength : Nat) : String :=
  if content.length ≤ maxLength then content
  else ⟨content.data.take maxLength⟩ ++ "..."

/-- Placeholder document for the `Document ... không tồn tại` throw in result
materialization; unreachable, because every scored id has a positive term
frequency and therefore a stored document. -/
def dummyDocument : Document := ⟨"", "", "", none, none, [], 0, 0, {}⟩

def materializeResult (st : Layer2State) (score : BM25Score) : SearchResult :=
  let document := (mapGet st.documents score.documentId).getD dummyDocument
  { id := document.id
    title := document.title
    content := truncateContent document.content 200
    url := document.url
    score := score.score
    metadata := { document.metadata with
      bm25Score := some score.score
      termScores := score.termScores
      documentLength := some ((mapGet st.documentLengths document.id).getD 0) } }

def layer2search (lnQ : ℚ → ℚ) (tok : String → List String)
    (st : Layer2State) (query : String) (layer1DocumentIds : List String) :
    Layer2Result :=
  let queryTokens := tok query
  if queryTokens = [] ∨ layer1DocumentIds = [] then ⟨[], 0, 0⟩
  else
    let bm25Scores := calculateBM25Scores lnQ tok st queryTokens
      layer1DocumentIds
    let sorted := sortDesc BM25Score.score bm25Scores
    let limited := sorted.take maxResultsLayer2
    ⟨limited.map (materializeResult st), bm25Scores.length, 0⟩

/-! ### Stage 3: `Layer3VectorSearch` (`layer3-vector-search.ts`)

The embedding model is external; the query embedding is a parameter.
`Math.sqrt` is passed in as `sqrtQ : ℚ → ℚ`.  The dimension-mismatch throw of
`calculateCosineSimilarity` is modelled with `Option`. -/

structure VectorEmbedding where
  documentId : String
  vector : List ℚ
  deriving DecidableEq, Repr

def calculateCosineSimilarity (sqrtQ : ℚ → ℚ) (vectorA vectorB : List ℚ) :
    Option ℚ :=
  if vectorA.length ≠ vectorB.length then none
  else
    let dotProduct := ((vectorA.zip vectorB).map (fun p => p.1 * p.2)).sum
    let normA := (vectorA.map (fun x => x * x)).sum
    let normB := (vectorB.map (fun x => x * x)).sum
    if normA = 0 ∨ normB = 0 then some 0
    else some (dotProduct / (sqrtQ normA * sqrtQ normB))

structure VectorSearchResult where
  documentId : String
  similarity : ℚ
  vector : List ℚ
  deriving DecidableEq, Repr

/-- The similarity loop of stage-3 `search`: one entry per stage-2 result
whose id has a stored vector; a dimension mismatch aborts the whole search. -/
def vectorScoresOf (sqrtQ : ℚ → ℚ)
    (embeddings : List (String × VectorEmbedding)) (queryEmbedding : List ℚ) :
    List SearchResult → Option (List VectorSearchResult)
  | [] => some []
  | r :: rs =>
      match mapGet embeddings r.id with
      | none => vectorScoresOf sqrtQ embeddings queryEmbedding rs
      | some embedding =>
          match calculateCosineSimilarity sqrtQ queryEmbedding
            embedding.vector with
          | none => none
          | some similarity =>
              match vectorScoresOf sqrtQ embeddings queryEmbedding rs with
              | none => none
              | some rest => some (⟨r.id, similarity, embedding.vector⟩ :: rest)

def combineScores (bm25Results : List SearchResult)
    (vectorResults : List VectorSearchResult) : List SearchResult :=
  let vectorScoreMap := vectorResults.foldl
    (fun m vr => mapSet m vr.documentId vr.similarity) []
  bm25Results.map (fun result =>
    let vectorScore := (mapGet vectorScoreMap result.id).getD 0
    let combinedScore := 6 / 10 * result.score + 4 / 10 * vectorScore
    { result with
      score := combinedScore
      metadata := { result.metadata with
        vectorSimilarity := some vectorScore
        combinedScore := some combinedScore } })

def layer3search (sqrtQ : ℚ → ℚ)
    (embeddings : List (String × VectorEmbedding)) (queryEmbedding : List ℚ)
    (layer2Results : Layer2Result) : Option Layer3Result :=
  if layer2Results.results = [] then some ⟨[], 0, 0, []⟩
  else
    match vectorScoresOf sqrtQ embeddings queryEmbedding
      layer2Results.results with
    | none => none
    | some vectorScores =>
        let sortedVectorScores :=
          sortDesc VectorSearchResult.similarity vectorScores
        let combinedResults := combineScores layer2Results.results
          sortedVectorScores
        let sortedCombined := sortDesc SearchResult.score combinedResults
        some ⟨sortedCombined.take maxResultsLayer3, combinedResults.length, 0,
          sortedVectorScores.map VectorSearchResult.similarity⟩

def removeEmbedding (embeddings : List (String × VectorEmbedding))
    (documentId : String) : Bool × List (String × VectorEmbedding) :=
  ((mapGet embeddings documentId).isSome, mapDelete embeddings documentId)

/-! ### Stage 4: `Layer4Personalization` (`layer4-personalization.ts`)

The haversine helper `calculateDistance` (trigonometric) is passed in as
`dist`; the current time read by the temporal boosts is a `TimeCtx`. -/

structure UserPreferences where
  categories : List String := []
  languages : List String := []
  topics : List String := []
  deriving DecidableEq, Repr

structure UserBehavior where
  clickHistory : List String := []
  searchHistory : List String := []
  timeSpent : List (String × ℚ) := []
  deriving DecidableEq, Repr

structure UserDemographics where
  age : Option Int := none
  location : Option String := none
  interests : Option (List String) := none
  deriving DecidableEq, Repr

structure UserProfile where
  userId : String
  preferences : UserPreferences := {}
  behavior : UserBehavior := {}
  demographics : Option UserDemographics := none
  lastUpdated : Int := 0
  deriving DecidableEq, Repr

/-- The clock values `new Date()` provides to the temporal boosts. -/
structure TimeCtx where
  hour : Int := 0
  dayOfWeek : Int := 0
  nowMs : Int := 0
  deriving DecidableEq, Repr

/-- JS truthiness of an optional string (`undefined` and `""` are falsy). -/
def optStringTruthy : Option String → Bool
  | none => false
  | some s => s ≠ ""

def charsStartWith : List Char → List Char → Bool
  | [], _ => true
  | _ :: _, [] => false
  | p :: ps, c :: cs => p = c && charsStartWith ps cs

def charsHaveSub (pat : List Char) : List Char → Bool
  | [] => pat.isEmpty
  | c :: cs => charsStartWith pat (c :: cs) || charsHaveSub pat cs

/-- JS `String.prototype.includes`. -/
def strIncl (s pat : String) : Bool := charsHaveSub pat.data s.data

def calculateSearchHistoryBoost (result : SearchResult)
    (searchHistory : List String) : ℚ :=
  if searchHistory = [] then 0
  else
    let resultText := (result.title ++ " " ++ result.content).toLower
    let boost := (searchHistory.map (fun query =>
      ((query.toLower.splitOn " ").map (fun word =>
        if strIncl resultText word then (5 : ℚ) / 100 else 0)).sum)).sum
    min boost (2 / 10)

def calculateAgeMatch (userAge : Int) (ageGroup : String) : ℚ :=
  let bounds : Int × Int :=
    if ageGroup = "teen" then (13, 19)
    else if ageGroup = "young_adult" then (20, 30)
    else if ageGroup = "adult" then (31, 50)
    else if ageGroup = "senior" then (51, 100)
    else (0, 100)
  if bounds.1 ≤ userAge ∧ userAge ≤ bounds.2 then 1 else 0

def calculateInterestMatch (userInterests resultTags : List String) : ℚ :=
  let matched := userInterests.filter (fun interest =>
    resultTags.any (fun tag => strIncl tag.toLower interest.toLower))
  (matched.length : ℚ) / (max userInterests.length 1 : ℚ)

def calculateDemographicsBoost (result : SearchResult)
    (demographics : UserDemographics) : ℚ :=
  let ageBoost := match demographics.age, result.metadata.ageGroup with
    | some age, some ageGroup =>
        if age ≠ 0 ∧ ageGroup ≠ "" then
          calculateAgeMatch age ageGroup * (1 / 10)
        else 0
    | _, _ => 0
  let interestBoost := match demographics.interests, result.metadata.tags with
    | some interests, some tags =>
        calculateInterestMatch interests tags * (15 / 100)
    | _, _ => 0
  ageBoost + interestBoost

def calculateLocationBoost (dist : ℚ × ℚ → ℚ × ℚ → ℚ)
    (userLocation resultLocation : ℚ × ℚ) : ℚ :=
  let distance := dist userLocation resultLocation
  if distance < 1 then 2 / 10
  else if distance < 5 then 1 / 10
  else if distance < 10 then 5 / 100
  else 0

def calculateDeviceBoost (result : SearchResult) (device : String) : ℚ :=
  if device = "mobile" ∧ result.metadata.mobileOptimized then 1 / 10
  else if device = "desktop" ∧ result.metadata.desktopOptimized then 5 / 100
  else 0

/-- Session boosting is reserved and contributes 0. -/
def calculateSessionBoost (_result : SearchResult) (_sessionId : String) :
    ℚ := 0

def calculateQueryContextBoost (result : SearchResult)
    (previousQueries : List String) : ℚ :=
  let resultText := (result.title ++ " " ++ result.content).toLower
  let boost := (previousQueries.map (fun query =>
    ((query.toLower.splitOn " ").map (fun word =>
      if strIncl resultText word then (3 : ℚ) / 100 else 0)).sum)).sum
  min boost (1 / 10)

def calculateTimeOfDayBoost (category : String) (hour : Int) : ℚ :=
  let preferredHours : List Int :=
    if category = "news" then [6, 7, 8, 18, 19, 20]
    else if category = "entertainment" then [19, 20, 21, 22, 23]
    else if category = "work" then [9, 10, 11, 14, 15, 16]
    else if category = "shopping" then [10, 11, 12, 15, 16, 17, 20, 21]
    else []
  if hour ∈ preferredHours then 5 / 100 else 0

def calculateDayOfWeekBoost (category : String) (dayOfWeek : Int) : ℚ :=
  let preferredDays : List Int :=
    if category = "work" then [1, 2, 3, 4, 5]
    else if category = "entertainment" then [5, 6, 0]
    else if category = "shopping" then [6, 0]
    else if category = "news" then [1, 2, 3, 4, 5, 6, 0]
    else []
  if dayOfWeek ∈ preferredDays then 3 / 100 else 0

def calculateRecencyBoost (nowMs createdAt : Int) : ℚ :=
  let hoursDiff : ℚ := ((nowMs : ℚ) - (createdAt : ℚ)) / (1000 * 60 * 60)
  if hoursDiff < 1 then 1 / 10
  else if hoursDiff < 24 then 5 / 100
  else if hoursDiff < 168 then 2 / 100
  else 0

def userPersonalizationBoost (profile : UserProfile) (result : SearchResult) :
    ℚ :=
  let categoryBoost := match result.metadata.category with
    | some category =>
        if category ≠ "" ∧ category ∈ profile.preferences.categories then
          (2 : ℚ) / 10
        else 0
    | none => 0
  let clickBoost : ℚ :=
    if result.id ∈ profile.behavior.clickHistory then 15 / 100 else 0
  let historyBoost := calculateSearchHistoryBoost result
    profile.behavior.searchHistory
  let timeSpent := (mapGet profile.behavior.timeSpent result.id).getD 0
  let timeBoost : ℚ := if 0 < timeSpent then min (timeSpent / 1000) (1 / 10)
    else 0
  let demographicsBoost := match profile.demographics with
    | some demographics => calculateDemographicsBoost result demographics
    | none => 0
  categoryBoost + clickBoost + historyBoost + timeBoost + demographicsBoost

def applyUserPersonalization (profiles : List (String × UserProfile))
    (userId : String) (results : List SearchResult) : List SearchResult :=
  match mapGet profiles userId with
  | none => results
  | some profile =>
      results.map (fun result =>
        let personalizationBoost := userPersonalizationBoost profile result
        { result with
          score := result.score +
            result.score * personalizationBoost * userProfileWeight
          metadata := { result.metadata with
            personalizationBoost := some personalizationBoost
            userRelevance := some personalizationBoost } })

def contextualBoost (dist : ℚ × ℚ → ℚ × ℚ → ℚ) (context : SearchContext)
    (result : SearchResult) : ℚ :=
  let locationBoost := match context.location, result.metadata.location with
    | some userLocation, some resultLocation =>
        calculateLocationBoost dist userLocation resultLocation
    | _, _ => 0
  let deviceBoost := match context.device with
    | some device => if device ≠ "" then calculateDeviceBoost result device
        else 0
    | none => 0
  let sessionBoost := match context.sessionId with
    | some sessionId => if sessionId ≠ "" then
        calculateSessionBoost result sessionId else 0
    | none => 0
  let queryBoost :=
    if context.previousQueries ≠ [] then
      calculateQueryContextBoost result context.previousQueries
    else 0
  locationBoost + deviceBoost + sessionBoost + queryBoost

def applyContextualPersonalization (dist : ℚ × ℚ → ℚ × ℚ → ℚ)
    (results : List SearchResult) (context : SearchContext) :
    List SearchResult :=
  results.map (fun result =>
    let contextBoost := contextualBoost dist context result
    { result with
      score := result.score + result.score * contextBoost * contextWeight
      metadata := { result.metadata with
        contextBoost := some contextBoost
        contextualRelevance := some contextBoost } })

def temporalBoostOf (tc : TimeCtx) (result : SearchResult) : ℚ :=
  let timeBoost := match result.metadata.category with
    | some category => if category ≠ "" then
        calculateTimeOfDayBoost category tc.hour else 0
    | none => 0
  let dayBoost := match result.metadata.category with
    | some category => if category ≠ "" then
        calculateDayOfWeekBoost category tc.dayOfWeek else 0
    | none => 0
  let recencyBoost := match result.metadata.createdAt with
    | some createdAt => calculateRecencyBoost tc.nowMs createdAt
    | none => 0
  timeBoost + dayBoost + recencyBoost

def applyTemporalPersonalization (tc : TimeCtx)
    (results : List SearchResult) : List SearchResult :=
  results.map (fun result =>
    let temporalBoost := temporalBoostOf tc result
    { result with
      score := result.score + result.score * temporalBoost * temporalWeight
      metadata := { result.metadata with
        temporalBoost := some temporalBoost
        temporalRelevance := some temporalBoost } })

def calculatePersonalizationScore (userId : Option String)
    (context : Option SearchContext) : ℚ :=
  let score : ℚ :=
    (if optStringTruthy userId then userProfileWeight else 0) +
    (if context.isSome then contextWeight else 0) + temporalWeight
  min score 1

def personalize (dist : ℚ × ℚ → ℚ × ℚ → ℚ) (tc : TimeCtx)
    (profiles : List (String × UserProfile)) (request : SearchRequest)
    (layer3Results : Layer3Result) : Layer4Result :=
  if layer3Results.results = [] then ⟨[], 0, 0, 0⟩
  else
    let afterUser := match request.userId with
      | some userId =>
          if userId ≠ "" then
            applyUserPersonalization profiles userId layer3Results.results
          else layer3Results.results
      | none => layer3Results.results
    let afterContext := match request.context with
      | some context => applyContextualPersonalization dist afterUser context
      | none => afterUser
    let personalizedResults := applyTemporalPersonalization tc afterContext
    let sorted := sortDesc SearchResult.score personalizedResults
    ⟨sorted.take maxFinalResults, personalizedResults.length, 0,
      calculatePersonalizationScore request.userId request.context⟩

/-! ### Aggregating service: `SearchService` (`search-service.ts`) -/

structure ServiceState where
  l1 : Layer1State
  l2 : Layer2State
  l3 : List (String × VectorEmbedding)
  profiles : List (String × UserProfile)
  isInitialized : Bool
  deriving DecidableEq, Repr

structure LayerStats where
  layer1 : Layer1Result
  layer2 : Layer2Result
  layer3 : Layer3Result
  layer4 : Layer4Result
  deriving DecidableEq, Repr

structure SearchOutput where
  results : List SearchResult
  totalCount : Nat
  executionTime : ℚ := 0
  layerStats : LayerStats
  deriving DecidableEq, Repr

def emptyLayer2Result : Layer2Result := ⟨[], 0, 0⟩

def emptyLayer3Result : Layer3Result := ⟨[], 0, 0, []⟩

def emptyLayer4Result : Layer4Result := ⟨[], 0, 0, 0⟩

/-- The four-stage cascade (`SearchService.search`), with the early returns
after each stage that produces no results.  Stage-3 failures (the only
reachable stage error in this model: a vector-dimension mismatch) surface as
`SEARCH_ERROR`, as does searching before initialization
(`NOT_INITIALIZED`). -/
def searchService (lnQ sqrtQ : ℚ → ℚ) (tok : String → List String)
    (embed : String → List ℚ) (dist : ℚ × ℚ → ℚ × ℚ → ℚ) (tc : TimeCtx)
    (st : ServiceState) (request : SearchRequest) :
    Except String SearchOutput :=
  if ¬ st.isInitialized then .error "NOT_INITIALIZED"
  else
    let layer1Result := layer1search tok st.l1 request.query
    if layer1Result.documentIds = [] then
      .ok ⟨[], 0, 0, ⟨layer1Result, emptyLayer2Result, emptyLayer3Result,
        emptyLayer4Result⟩⟩
    else
      let layer2Result := layer2search lnQ tok st.l2 request.query
        layer1Result.documentIds
      if layer2Result.results = [] then
        .ok ⟨[], 0, 0, ⟨layer1Result, layer2Result, emptyLayer3Result,
          emptyLayer4Result⟩⟩
      else
        match layer3search sqrtQ st.l3 (embed request.query) layer2Result with
        | none => .error "SEARCH_ERROR"
        | some layer3Result =>
            if layer3Result.results = [] then
              .ok ⟨[], 0, 0, ⟨layer1Result, layer2Result, layer3Result,
                emptyLayer4Result⟩⟩
            else
              let layer4Result := personalize dist tc st.profiles request
                layer3Result
              .ok ⟨layer4Result.results, layer4Result.totalCount, 0,
                ⟨layer1Result, layer2Result, layer3Result, layer4Result⟩⟩

/-- `SearchService.removeDocument`: fan the removal out to stage 1, stage 2
and the vector store, and report success only when all three removed it. -/
def removeDocumentService (tok : String → List String) (st : ServiceState)
    (documentId : String) : Bool × ServiceState :=
  let r1 := removeDocumentL1 tok st.l1 documentId
  let r2 := removeDocumentL2 tok st.l2 documentId
  let r3 := removeEmbedding st.l3 documentId
  (r1.1 && r2.1 && r3.1,
    { st with l1 := r1.2, l2 := r2.2, l3 := r3.2 })

/-! ### Derived statistics and spec-side definitions -/

/-- Document frequency of a term reported by the stage-1 index (the
`documentFrequency` field of its entry, 0 when the term has no entry). -/
def dfL1 (st : Layer1State) (w : String) : Nat :=
  match mapGet st.index w with
  | some e => e.documentFrequency
  | none => 0

/-- Term frequency of `docId` recorded under term `w` in the stage-1 index. -/
def tfL1 (st : Layer1State) (w docId : String) : Nat :=
  match mapGet st.index w with
  | some e => (mapGet e.termFrequency docId).getD 0
  | none => 0

/-- The stage-1 index entry for a term after `k ≥ 1` additions of the same
document id (the cumulative effect of `l1AddStep` on one entry). -/
def entryAfterAdd (docId : String) (k : Nat) (e : InvertedIndexEntry) :
    InvertedIndexEntry :=
  { e with
    documentIds := setAdd e.documentIds docId
    termFrequency := mapSet e.termFrequency docId
      ((mapGet e.termFrequency docId).getD 0 + k)
    documentFrequency := (setAdd e.documentIds docId).length }

/-- Projection of an optional index entry to its id set and document
frequency (the statistics claim C1 talks about). -/
def entrySketch : Option InvertedIndexEntry → Option (List String × Nat)
  | none => none
  | some e => some (e.documentIds, e.documentFrequency)

/-- Effect of removing a document id on an entry sketch. -/
def remSketch (docId : String) :
    Option (List String × Nat) → Option (List String × Nat)
  | none => none
  | some (ids, _) =>
      let ids' := ids.erase docId
      if ids'.length = 0 then none else some (ids', ids'.length)

/-- Effect of one stage-2 document-frequency decrement. -/
def remDf : Option Nat → Option Nat
  | none => none
  | some k => if 1 < k then some (k - 1) else none

/-- Document frequency recorded in an entry sketch. -/
def sketchDf : Option (List String × Nat) → Nat
  | none => 0
  | some p => p.2

/-- Effect of removing a document id on an optional index entry (one
`l1RemoveStep` on the entry its token names). -/
def optEntryRemove (docId : String) :
    Option InvertedIndexEntry → Option InvertedIndexEntry
  | none => none
  | some e =>
      if (e.documentIds.erase docId).length = 0 then none
      else some { e with
        documentIds := e.documentIds.erase docId
        termFrequency := mapDelete e.termFrequency docId
        documentFrequency := (e.documentIds.erase docId).length }

/-- Spec-side BM25 contribution of one query term to one candidate, written
after the spec formula: idf(t) · ( tf(t,d)·(k1+1) ) / ( tf(t,d) + k1·(1 − b +
b·|d|/avgdl) ) when tf(t,d) > 0 and df(t) > 0, else 0, with idf(t) =
ln((N − df(t) + 0.5)/(df(t) + 0.5)). -/
def bm25TermContribution (lnQ : ℚ → ℚ) (tok : String → List String)
    (st : Layer2State) (docId term : String) : ℚ :=
  let tf := getTermFrequency tok st term docId
  let df := (mapGet st.termDocumentFrequency term).getD 0
  let dl := ((mapGet st.documentLengths docId).getD 0 : ℚ)
  if 0 < tf ∧ 0 < df then
    lnQ (((st.totalDocuments : ℚ) - (df : ℚ) + 1 / 2) / ((df : ℚ) + 1 / 2)) *
      ((tf : ℚ) * (st.k1 + 1)) /
      ((tf : ℚ) + st.k1 * (1 - st.b + st.b * (dl / st.averageDocumentLength)))
  else 0

/-- Spec-side BM25 score: the sum of the per-term contributions over the
query token list. -/
def bm25SpecScore (lnQ : ℚ → ℚ) (tok : String → List String)
    (st : Layer2State) (queryTokens : List String) (docId : String) : ℚ :=
  (queryTokens.map (bm25TermContribution lnQ tok st docId)).sum

/-- The stage-2 ranking exactly as claim C2 states it: candidates with zero
total score omitted, the rest sorted by score descending and truncated to
`maxResultsLayer2`. -/
def bm25RankingZeroOmitted (lnQ : ℚ → ℚ) (tok : String → List String)
    (st : Layer2State) (query : String) (ids : List String) :
    List (String × ℚ) :=
  let queryTokens := tok query
  if queryTokens = [] ∨ ids = [] then []
  else
    (sortDesc Prod.snd
      ((ids.filter
        (fun id => bm25SpecScore lnQ tok st queryTokens id ≠ 0)).map
        (fun id => (id, bm25SpecScore lnQ tok st queryTokens id)))).take
      maxResultsLayer2

/-- The amended stage-2 ranking: candidates whose total score is not
positive (zero or negative) are omitted. -/
def bm25RankingPositive (lnQ : ℚ → ℚ) (tok : String → List String)
    (st : Layer2State) (query : String) (ids : List String) :
    List (String × ℚ) :=
  let queryTokens := tok query
  if queryTokens = [] ∨ ids = [] then []
  else
    (sortDesc Prod.snd
      ((ids.filter
        (fun id => 0 < bm25SpecScore lnQ tok st queryTokens id)).map
        (fun id => (id, bm25SpecScore lnQ tok st queryTokens id)))).take
      maxResultsLayer2

/-- Cosine similarity of a candidate against the query embedding as claim C3
describes it: the cosine of the stored vector, 0 when no vector is stored. -/
def cosOrZero (sqrtQ : ℚ → ℚ) (embeddings : List (String × VectorEmbedding))
    (queryEmbedding : List ℚ) (id : String) : ℚ :=
  match mapGet embeddings id with
  | some e => (calculateCosineSimilarity sqrtQ queryEmbedding e.vector).getD 0
  | none => 0

/-- The value `vectorScoresOf` computes when no dimension mismatch occurs. -/
def vsList (sqrtQ : ℚ → ℚ) (embeddings : List (String × VectorEmbedding))
    (queryEmbedding : List ℚ) : List SearchResult → List VectorSearchResult
  | [] => []
  | r :: rs =>
      match mapGet embeddings r.id with
      | none => vsList sqrtQ embeddings queryEmbedding rs
      | some e =>
          ⟨r.id,
            (calculateCosineSimilarity sqrtQ queryEmbedding e.vector).getD 0,
            e.vector⟩ :: vsList sqrtQ embeddings queryEmbedding rs

/-! ### Concrete instances used by witnesses and counterexamples -/

/-- Character-level space splitter (used only to build the concrete example
tokenizer below). -/
def splitWords : List Char → List (List Char)
  | [] => [[]]
  | c :: cs =>
      let rest := splitWords cs
      if c = ' ' then [] :: rest
      else
        match rest with
        | [] => [[c]]
        | w :: ws => (c :: w) :: ws

/-- A concrete deterministic tokenizer: split on spaces, keep tokens longer
than 2 characters (the claims hold for every tokenizer; this one instantiates
them). -/
def exTok : String → List String :=
  fun s => ((splitWords s.data).map (fun w => (⟨w⟩ : String))).filter
    (fun t => 2 < t.length)

/-- A concrete sign-faithful stand-in for `Math.log`: negative below 1, zero
at 1, positive above 1. -/
def exLn : ℚ → ℚ := fun x => if x < 1 then -1 else if x = 1 then 0 else 1

/-- A concrete stand-in for `Math.sqrt` (only its value at 1 matters for the
witnesses). -/
def exSqrt : ℚ → ℚ := fun x => if x = 1 then 1 else x

/-- A concrete stand-in for the haversine distance. -/
def exDist : ℚ × ℚ → ℚ × ℚ → ℚ := fun _ _ => 0

def exDocA : Document :=
  { id := "d1", title := "machine learning", content := "algorithms" }

def exDocB : Document :=
  { id := "d2", title := "deep learning", content := "networks" }

/-- Stage-1 state with `exDocA` and `exDocB` indexed. -/
def exL1 : Layer1State :=
  addDocumentL1 exTok (addDocumentL1 exTok emptyL1 exDocA) exDocB

/-- Stage-2 counterexample state: a single one-token document, so that the
query term occurs in every document and its idf — hence its whole BM25
score — is negative. -/
def cexDoc : Document := { id := "d1", title := "foo", content := "" }

def cexL2 : Layer2State :=
  { documents := [("d1", cexDoc)]
    documentLengths := [("d1", 1)]
    averageDocumentLength := 1
    termDocumentFrequency := [("foo", 1)]
    totalDocuments := 1
    k1 := 6 / 5
    b := 3 / 4 }

def exEmb : List (String × VectorEmbedding) := [("d1", ⟨"d1", [1, 0]⟩)]

def exResult : SearchResult :=
  { id := "d1", title := "t", content := "c", score := 2 }

def exResultB : SearchResult :=
  { id := "d2", title := "u", content := "d", score := 1 }

def exLayer2Result : Layer2Result := ⟨[exResult, exResultB], 2, 0⟩

def exLayer3Result : Layer3Result := ⟨[exResult, exResultB], 2, 0, []⟩

def exService : ServiceState := ⟨emptyL1, emptyL2, [], [], true⟩

/-- A content string of 201 characters, exceeding the 200-character excerpt
limit. -/
def longContent : String := ⟨List.replicate 201 'a'⟩

/-! ### Lemmas: stage-1 search sets -/

theorem mem_setAdd {s : List String} {x d : String} :
    d ∈ setAdd s x ↔ d ∈ s ∨ d = x := by
  unfold setAdd
  by_cases h : x ∈ s
  · simp only [if_pos h]
    constructor
    · exact Or.inl
    · rintro (hd | rfl) <;> assumption
  · simp [if_neg h]

theorem mem_foldl_setAdd (l : List String) (acc : List String) (d : String) :
    d ∈ l.foldl setAdd acc ↔ d ∈ acc ∨ d ∈ l := by
  induction l generalizing acc with
  | nil => simp
  | cons x xs ih =>
      simp only [List.foldl_cons, ih, mem_setAdd, List.mem_cons]
      tauto

theorem mem_unionDocuments (idx : List (String × InvertedIndexEntry))
    (tokens : List String) (d : String) :
    d ∈ unionDocuments idx tokens ↔ ∃ t ∈ tokens, d ∈ postings idx t := by
  suffices h : ∀ acc, d ∈ tokens.foldl
      (fun acc t => (postings idx t).foldl setAdd acc) acc ↔
      d ∈ acc ∨ ∃ t ∈ tokens, d ∈ postings idx t by
    simpa [unionDocuments] using h []
  induction tokens with
  | nil => simp
  | cons t ts ih =>
      intro acc
      simp only [List.foldl_cons, ih, mem_foldl_setAdd, List.mem_cons]
      constructor
      · rintro ((h | h) | ⟨t', ht', hd⟩)
        · exact Or.inl h
        · exact Or.inr ⟨t, Or.inl rfl, h⟩
        · exact Or.inr ⟨t', Or.inr ht', hd⟩
      · rintro (h | ⟨t', (rfl | ht'), hd⟩)
        · exact Or.inl (Or.inl h)
        · exact Or.inl (Or.inr hd)
        · exact Or.inr ⟨t', ht', hd⟩

theorem mem_intersectGo (idx : List (String × InvertedIndexEntry))
    (ts : List String) (cur : List String) (d : String) :
    d ∈ intersectGo idx ts cur ↔ d ∈ cur ∧ ∀ t ∈ ts, d ∈ postings idx t := by
  induction ts generalizing cur with
  | nil => simp [intersectGo]
  | cons t ts ih =>
      cases he : mapGet idx t with
      | none =>
          simp only [intersectGo, he]
          constructor
          · intro h; exact absurd h (List.not_mem_nil d)
          · rintro ⟨-, hall⟩
            have := hall t (List.mem_cons_self t ts)
            simp [postings, he] at this
      | some e =>
          simp only [intersectGo, he, ih, List.mem_filter, List.mem_cons]
          constructor
          · rintro ⟨⟨hc, hm⟩, hall⟩
            refine ⟨hc, ?_⟩
            rintro t' (rfl | ht')
            · simpa [postings, he] using hm
            · exact hall t' ht'
          · rintro ⟨hc, hall⟩
            refine ⟨⟨hc, ?_⟩, fun t' ht' => hall t' (Or.inr ht')⟩
            have := hall t (Or.inl rfl)
            simpa [postings, he] using this

theorem mem_uniq (l : List String) (x : String) : x ∈ uniq l ↔ x ∈ l := by
  induction l with
  | nil => simp [uniq]
  | cons a as ih =>
      simp only [uniq, List.mem_cons, List.mem_filter, ih]
      constructor
      · rintro (rfl | ⟨h, -⟩)
        · exact Or.inl rfl
        · exact Or.inr h
      · rintro (rfl | h)
        · exact Or.inl rfl
        · by_cases hx : x = a
          · exact Or.inl hx
          · exact Or.inr ⟨h, by simpa using hx⟩

theorem uniq_nodup (l : List String) : (uniq l).Nodup := by
  induction l with
  | nil => simp [uniq]
  | cons a as ih =>
      simp only [uniq, List.nodup_cons]
      refine ⟨?_, ih.filter _⟩
      simp

theorem mem_excludeDocuments (docs : List (String × Document))
    (idx : List (String × InvertedIndexEntry)) (tokens : List String)
    (d : String) :
    d ∈ excludeDocuments docs idx tokens ↔
      d ∈ mapKeys docs ∧ ∀ t ∈ tokens, d ∉ postings idx t := by
  simp [excludeDocuments, List.mem_filter, mem_uniq, List.elem_iff,
    mem_unionDocuments]

/-- Claim C4: boolean search computes, before the stage-1 truncation, the
intersection of the query tokens' posting sets for AND (empty as soon as one
token has no postings), their union for OR, and for NOT the stored documents
lying in no query token's posting set. -/
theorem c4_boolean_search (tok : String → List String) (st : Layer1State)
    (query : String) (docId : String) (h : tok query ≠ []) :
    (docId ∈ booleanResultSet st (tok query) .opAND ↔
      ∀ t ∈ tok query, docId ∈ postings st.index t) ∧
    (docId ∈ booleanResultSet st (tok query) .opOR ↔
      ∃ t ∈ tok query, docId ∈ postings st.index t) ∧
    (docId ∈ booleanResultSet st (tok query) .opNOT ↔
      docId ∈ mapKeys st.documents ∧
        ∀ t ∈ tok query, docId ∉ postings st.index t) ∧
    (∀ op, (booleanSearch tok st query op).documentIds =
      (booleanResultSet st (tok query) op).take maxResultsLayer1) := by
  refine ⟨?_, ?_, ?_, ?_⟩
  · cases hq : tok query with
    | nil => exact absurd hq h
    | cons t0 rest =>
        simp only [booleanResultSet, intersectDocuments, mem_intersectGo,
          List.mem_cons]
        constructor
        · rintro ⟨h0, hall⟩
          rintro t (rfl | ht)
          · exact h0
          · exact hall t ht
        · intro hall
          exact ⟨hall t0 (Or.inl rfl), fun t ht => hall t (Or.inr ht)⟩
  · simpa [booleanResultSet] using
      mem_unionDocuments st.index (tok query) docId
  · exact mem_excludeDocuments st.documents st.index (tok query) docId
  · intro op
    simp [booleanSearch, h]

/-- Witness for C4 at a concrete two-document index and the query
"machine deep". -/
theorem c4_boolean_search_witness :
    exTok "machine deep" ≠ [] ∧
    ("d1" ∈ booleanResultSet exL1 (exTok "machine deep") .opOR ↔
      ∃ t ∈ exTok "machine deep", "d1" ∈ postings exL1.index t) :=
  ⟨by decide,
    (c4_boolean_search exTok exL1 "machine deep" "d1" (by decide)).2.1⟩

/-! ### Lemmas: stage-2 scoring -/

theorem foldl_bm25TermStep_of_none (lnQ : ℚ → ℚ) (tok : String → List String)
    (st : Layer2State) (dl : ℚ) (docId : String)
    (h : mapGet st.documents docId = none) (qts : List String)
    (acc : ℚ × List (String × ℚ)) :
    qts.foldl (bm25TermStep lnQ tok st dl docId) acc = acc := by
  induction qts generalizing acc with
  | nil => rfl
  | cons t ts ih =>
      have hstep : bm25TermStep lnQ tok st dl docId acc t = acc := by
        simp [bm25TermStep, getTermFrequency, h]
      simp only [List.foldl_cons, hstep, ih]

theorem foldl_bm25TermStep_fst (lnQ : ℚ → ℚ) (tok : String → List String)
    (st : Layer2State) (docId : String) (qts : List String)
    (acc : ℚ × List (String × ℚ)) :
    (qts.foldl (bm25TermStep lnQ tok st
      ((mapGet st.documentLengths docId).getD 0 : ℚ) docId) acc).1 =
      acc.1 + (qts.map (bm25TermContribution lnQ tok st docId)).sum := by
  induction qts generalizing acc with
  | nil => simp
  | cons t ts ih =>
      have hstep : (bm25TermStep lnQ tok st
          ((mapGet st.documentLengths docId).getD 0 : ℚ) docId acc t).1 =
          acc.1 + bm25TermContribution lnQ tok st docId t := by
        by_cases hc : 0 < getTermFrequency tok st t docId ∧
            0 < (mapGet st.termDocumentFrequency t).getD 0
        · simp only [bm25TermStep, bm25TermContribution, if_pos hc]
          ring
        · simp [bm25TermStep, bm25TermContribution, if_neg hc]
      simp only [List.foldl_cons, ih, hstep, List.map_cons, List.sum_cons]
      ring

theorem calculateBM25Scores_score_eq (lnQ : ℚ → ℚ)
    (tok : String → List String) (st : Layer2State) (qts : List String)
    (ids : List String) :
    ∀ s ∈ calculateBM25Scores lnQ tok st qts ids,
      (∃ doc, mapGet st.documents s.documentId = some doc) ∧
      s.score = bm25SpecScore lnQ tok st qts s.documentId ∧ 0 < s.score := by
  induction ids with
  | nil => intro s hs; exact absurd hs (List.not_mem_nil s)
  | cons docId rest ih =>
      intro s hs
      simp only [calculateBM25Scores] at hs
      by_cases hpos : 0 < (qts.foldl (bm25TermStep lnQ tok st
          ((mapGet st.documentLengths docId).getD 0 : ℚ) docId) (0, [])).1
      · rw [if_pos hpos] at hs
        rcases List.mem_cons.mp hs with rfl | hs'
        · have hscore : (qts.foldl (bm25TermStep lnQ tok st
              ((mapGet st.documentLengths docId).getD 0 : ℚ) docId)
              (0, [])).1 = bm25SpecScore lnQ tok st qts docId := by
            rw [foldl_bm25TermStep_fst]
            simp [bm25SpecScore]
          refine ⟨?_, by simpa using hscore, by simpa using hpos⟩
          cases hd : mapGet st.documents docId with
          | none =>
              rw [foldl_bm25TermStep_of_none lnQ tok st _ docId hd] at hpos
              exact absurd hpos (by norm_num)
          | some doc => exact ⟨doc, rfl⟩
        · exact ih s hs'
      · rw [if_neg hpos] at hs
        exact ih s hs

theorem calculateBM25Scores_map_pair (lnQ : ℚ → ℚ)
    (tok : String → List String) (st : Layer2State) (qts : List String)
    (ids : List String) :
    (calculateBM25Scores lnQ tok st qts ids).map
        (fun s => (s.documentId, s.score)) =
      (ids.filter (fun id => 0 < bm25SpecScore lnQ tok st qts id)).map
        (fun id => (id, bm25SpecScore lnQ tok st qts id)) := by
  induction ids with
  | nil => rfl
  | cons docId rest ih =>
      have hscore : (qts.foldl (bm25TermStep lnQ tok st
          ((mapGet st.documentLengths docId).getD 0 : ℚ) docId)
          (0, [])).1 = bm25SpecScore lnQ tok st qts docId := by
        rw [foldl_bm25TermStep_fst]
        simp [bm25SpecScore]
      simp only [calculateBM25Scores, List.filter_cons, hscore]
      by_cases hpos : 0 < bm25SpecScore lnQ tok st qts docId
      · simp [hpos, ih]
      · simp [hpos, ih]

/-- Claim C8: stage-2 result materialization returns the stored content
unchanged when it has at most 200 characters and otherwise truncates it to
its first 200 characters with the ellipsis marker appended; every emitted
stage-2 result carries exactly this excerpt of its stored document. -/
theorem c8_content_truncation (lnQ : ℚ → ℚ) (tok : String → List String)
    (st : Layer2State) (query : String) (ids : List String) (c : String) :
    (c.length ≤ 200 → truncateContent c 200 = c) ∧
    (200 < c.length →
      truncateContent c 200 = (⟨c.data.take 200⟩ : String) ++ "...") ∧
    (∀ r ∈ (layer2search lnQ tok st query ids).results,
      ∃ docId doc, mapGet st.documents docId = some doc ∧ r.id = doc.id ∧
        r.content = truncateContent doc.content 200) := by
  refine ⟨fun h => by simp [truncateContent, h], fun h => by
    simp [truncateContent, Nat.not_le.mpr h, not_le.mpr h], ?_⟩
  intro r hr
  by_cases hguard : tok query = [] ∨ ids = []
  · simp [layer2search, hguard] at hr
  · simp only [layer2search, if_neg hguard, List.mem_map] at hr
    obtain ⟨s, hs, rfl⟩ := hr
    have hs' : s ∈ calculateBM25Scores lnQ tok st (tok query) ids := by
      have := List.take_subset maxResultsLayer2
        (sortDesc BM25Score.score (calculateBM25Scores lnQ tok st
          (tok query) ids)) hs
      exact (mem_sortDesc _ _ _).mp this
    obtain ⟨⟨doc, hdoc⟩, -, -⟩ :=
      calculateBM25Scores_score_eq lnQ tok st (tok query) ids s hs'
    exact ⟨s.documentId, doc, hdoc, by simp [materializeResult, hdoc],
      by simp [materializeResult, hdoc]⟩

/-- Witness for C8: a short content is unchanged, a 201-character content is
truncated with the marker appended. -/
theorem c8_content_truncation_witness :
    truncateContent "abc" 200 = "abc" ∧
    truncateContent longContent 200 =
      (⟨longContent.data.take 200⟩ : String) ++ "..." :=
  ⟨(c8_content_truncation exLn exTok cexL2 "foo" [] "abc").1 (by decide),
    (c8_content_truncation exLn exTok cexL2 "foo" [] longContent).2.1
      (by decide)⟩

/-- Claim C6: whenever stage 4 processes a non-empty result list, the
reported request-level `personalizationScore` is the sum of the applicable
configured weights — `userProfileWeight` when a userId is supplied (truthy),
`contextWeight` when a context is supplied, `temporalWeight` always —
clamped to at most 1. -/
theorem c6_personalization_score (dist : ℚ × ℚ → ℚ × ℚ → ℚ) (tc : TimeCtx)
    (profiles : List (String × UserProfile)) (request : SearchRequest)
    (l3 : Layer3Result) (h : l3.results ≠ []) :
    (personalize dist tc profiles request l3).personalizationScore =
      min ((if optStringTruthy request.userId then userProfileWeight else 0) +
        (if request.context.isSome then contextWeight else 0) +
        temporalWeight) 1 := by
  simp [personalize, h, calculatePersonalizationScore]

/-- Witness for C6 at a concrete request with neither userId nor context. -/
theorem c6_personalization_score_witness :
    (personalize exDist {} [] ⟨"q", none, none, none⟩
        exLayer3Result).personalizationScore =
      min ((if optStringTruthy none then userProfileWeight else 0) +
        (if (none : Option SearchContext).isSome then contextWeight else 0) +
        temporalWeight) 1 :=
  c6_personalization_score exDist {} [] ⟨"q", none, none, none⟩
    exLayer3Result (by decide)

/-- Claim C10: `SearchService.removeDocument` reports success exactly when
the id was present in stage 1, stage 2 and the vector store, and in every
case the id is absent from all three stores afterwards (stages holding it are
mutated even when another stage misses it; nothing is rolled back). -/
theorem c10_remove_fanout (tok : String → List String) (st : ServiceState)
    (documentId : String) (h1 : (mapKeys st.l1.documents).Nodup)
    (h2 : (mapKeys st.l2.documents).Nodup) (h3 : (mapKeys st.l3).Nodup) :
    (removeDocumentService tok st documentId).1 =
      ((mapGet st.l1.documents documentId).isSome &&
       (mapGet st.l2.documents documentId).isSome &&
       (mapGet st.l3 documentId).isSome) ∧
    mapGet (removeDocumentService tok st documentId).2.l1.documents
      documentId = none ∧
    mapGet (removeDocumentService tok st documentId).2.l2.documents
      documentId = none ∧
    mapGet (removeDocumentService tok st documentId).2.l3 documentId =
      none := by
  refine ⟨?_, ?_, ?_, ?_⟩
  · cases he1 : mapGet st.l1.documents documentId <;>
      cases he2 : mapGet st.l2.documents documentId <;>
        simp [removeDocumentService, removeDocumentL1, removeDocumentL2,
          removeEmbedding, he1, he2]
  · cases he1 : mapGet st.l1.documents documentId with
    | none => simp [removeDocumentService, removeDocumentL1, he1]
    | some doc =>
        simp [removeDocumentService, removeDocumentL1, he1,
          mapGet_mapDelete_self h1]
  · cases he2 : mapGet st.l2.documents documentId with
    | none => simp [removeDocumentService, removeDocumentL2, he2]
    | some doc =>
        simp [removeDocumentService, removeDocumentL2, he2,
          mapGet_mapDelete_self h2]
  · simp [removeDocumentService, removeEmbedding, mapGet_mapDelete_self h3]

/-- Witness for C10 at a service state holding one document only in the
vector store. -/
theorem c10_remove_fanout_witness :
    (removeDocumentService exTok ⟨emptyL1, emptyL2, exEmb, [], true⟩
        "d1").1 =
      ((mapGet emptyL1.documents "d1").isSome &&
       (mapGet emptyL2.documents "d1").isSome &&
       (mapGet exEmb "d1").isSome) ∧
    mapGet (removeDocumentService exTok ⟨emptyL1, emptyL2, exEmb, [], true⟩
      "d1").2.l1.documents "d1" = none ∧
    mapGet (removeDocumentService exTok ⟨emptyL1, emptyL2, exEmb, [], true⟩
      "d1").2.l2.documents "d1" = none ∧
    mapGet (removeDocumentService exTok ⟨emptyL1, emptyL2, exEmb, [], true⟩
      "d1").2.l3 "d1" = none :=
  c10_remove_fanout exTok ⟨emptyL1, emptyL2, exEmb, [], true⟩ "d1"
    (by decide) (by decide) (by decide)

/-- Claim C5: when stage 1 yields no candidates, the full search is not an
error: it returns an empty result list with `totalCount` 0 and a
`layerStats` object carrying all four layers, the downstream ones with zero
timings and empty payloads. -/
theorem c5_empty_candidates (lnQ sqrtQ : ℚ → ℚ) (tok : String → List String)
    (embed : String → List ℚ) (dist : ℚ × ℚ → ℚ × ℚ → ℚ) (tc : TimeCtx)
    (st : ServiceState) (request : SearchRequest)
    (hinit : st.isInitialized = true)
    (hempty : (layer1search tok st.l1 request.query).documentIds = []) :
    searchService lnQ sqrtQ tok embed dist tc st request =
      .ok ⟨[], 0, 0,
        ⟨layer1search tok st.l1 request.query, emptyLayer2Result,
         emptyLayer3Result, emptyLayer4Result⟩⟩ := by
  simp [searchService, hinit, hempty]

/-- Witness for C5: searching an empty corpus succeeds with empty payloads
(scenario S1). -/
theorem c5_empty_candidates_witness :
    searchService exLn exSqrt exTok (fun _ => [1, 0]) exDist {} exService
        ⟨"x", none, none, none⟩ =
      .ok ⟨[], 0, 0,
        ⟨layer1search exTok exService.l1 "x", emptyLayer2Result,
         emptyLayer3Result, emptyLayer4Result⟩⟩ :=
  c5_empty_candidates exLn exSqrt exTok (fun _ => [1, 0]) exDist {}
    exService ⟨"x", none, none, none⟩ (by decide) (by decide)

/-! ### Lemmas: stage-3 fusion -/

theorem cosineSimilarity_eq_some (sqrtQ : ℚ → ℚ) {a b : List ℚ}
    (h : a.length = b.length) :
    calculateCosineSimilarity sqrtQ a b =
      some ((calculateCosineSimilarity sqrtQ a b).getD 0) := by
  simp only [calculateCosineSimilarity,
    if_neg (by simp [h] : ¬ a.length ≠ b.length)]
  split_ifs <;> rfl

theorem vectorScoresOf_eq_vsList (sqrtQ : ℚ → ℚ)
    (embs : List (String × VectorEmbedding)) (qv : List ℚ)
    (hdim : ∀ id e, mapGet embs id = some e → e.vector.length = qv.length)
    (rs : List SearchResult) :
    vectorScoresOf sqrtQ embs qv rs = some (vsList sqrtQ embs qv rs) := by
  induction rs with
  | nil => rfl
  | cons r rest ih =>
      cases he : mapGet embs r.id with
      | none => simp only [vectorScoresOf, vsList, he, ih]
      | some e =>
          obtain ⟨q, hq⟩ : ∃ q,
              calculateCosineSimilarity sqrtQ qv e.vector = some q :=
            ⟨_, cosineSimilarity_eq_some sqrtQ (hdim r.id e he).symm⟩
          simp only [vectorScoresOf, vsList, he, hq, ih, Option.getD_some]

theorem vsList_similarity (sqrtQ : ℚ → ℚ)
    (embs : List (String × VectorEmbedding)) (qv : List ℚ)
    (rs : List SearchResult) :
    ∀ v ∈ vsList sqrtQ embs qv rs,
      v.similarity = cosOrZero sqrtQ embs qv v.documentId := by
  induction rs with
  | nil => intro v hv; exact absurd hv (List.not_mem_nil v)
  | cons r rest ih =>
      intro v hv
      cases he : mapGet embs r.id with
      | none =>
          rw [vsList, he] at hv
          exact ih v hv
      | some e =>
          rw [vsList, he] at hv
          rcases List.mem_cons.mp hv with rfl | hv'
          · simp [cosOrZero, he]
          · exact ih v hv'

theorem vsList_ids_isSome (sqrtQ : ℚ → ℚ)
    (embs : List (String × VectorEmbedding)) (qv : List ℚ)
    (rs : List SearchResult) :
    ∀ v ∈ vsList sqrtQ embs qv rs, (mapGet embs v.documentId).isSome := by
  induction rs with
  | nil => intro v hv; exact absurd hv (List.not_mem_nil v)
  | cons r rest ih =>
      intro v hv
      cases he : mapGet embs r.id with
      | none =>
          rw [vsList, he] at hv
          exact ih v hv
      | some e =>
          rw [vsList, he] at hv
          rcases List.mem_cons.mp hv with rfl | hv'
          · simp [he]
          · exact ih v hv'

theorem mem_vsList_ids (sqrtQ : ℚ → ℚ)
    (embs : List (String × VectorEmbedding)) (qv : List ℚ)
    (rs : List SearchResult) (r : SearchResult) (hr : r ∈ rs)
    (hsome : (mapGet embs r.id).isSome) :
    r.id ∈ (vsList sqrtQ embs qv rs).map VectorSearchResult.documentId := by
  induction rs with
  | nil => exact absurd hr (List.not_mem_nil r)
  | cons r' rest ih =>
      rcases List.mem_cons.mp hr with rfl | hr'
      · cases he : mapGet embs r.id with
        | none => rw [he] at hsome; simp at hsome
        | some e => simp [vsList, he]
      · cases he : mapGet embs r'.id with
        | none => simpa [vsList, he] using ih hr'
        | some e =>
            simp only [vsList, he, List.map_cons, List.mem_cons]
            exact Or.inr (ih hr')

theorem mapGet_scoreMapFold (f : String → ℚ)
    (l : List VectorSearchResult)
    (hl : ∀ v ∈ l, v.similarity = f v.documentId) (m : List (String × ℚ))
    (k : String) :
    mapGet (l.foldl (fun m vr => mapSet m vr.documentId vr.similarity) m)
        k =
      if k ∈ l.map VectorSearchResult.documentId then some (f k)
      else mapGet m k := by
  induction l generalizing m with
  | nil => simp
  | cons v vs ih =>
      have hv : v.similarity = f v.documentId := hl v (List.mem_cons_self v vs)
      have hvs : ∀ w ∈ vs, w.similarity = f w.documentId :=
        fun w hw => hl w (List.mem_cons_of_mem v hw)
      simp only [List.foldl_cons, ih hvs, List.map_cons, List.mem_cons]
      by_cases hmem : k ∈ vs.map VectorSearchResult.documentId
      · simp [hmem]
      · by_cases hk : k = v.documentId
        · subst hk
          simp [hmem, hv, mapGet_mapSet_self]
        · rw [if_neg hmem, if_neg (by
            rintro (h | h)
            · exact hk h
            · exact hmem h)]
          exact mapGet_mapSet_ne m v.similarity (fun h => hk h.symm)

/-- Claim C3: the stage-3 re-ranking succeeds (given consistent vector
dimensions) and every output score is 0.6 times the incoming BM25 score plus
0.4 times the cosine similarity against the stored vector, a missing vector
counting as similarity 0; results are then sorted by the fused score and
truncated to `maxResultsLayer3`. -/
theorem c3_score_fusion (sqrtQ : ℚ → ℚ)
    (embs : List (String × VectorEmbedding)) (qv : List ℚ)
    (l2 : Layer2Result)
    (hdim : ∀ id e, mapGet embs id = some e → e.vector.length = qv.length) :
    ∃ out, layer3search sqrtQ embs qv l2 = some out ∧
      out.results.map (fun r => (r.id, r.score)) =
        (sortDesc Prod.snd (l2.results.map (fun r =>
          (r.id, 6 / 10 * r.score +
            4 / 10 * cosOrZero sqrtQ embs qv r.id)))).take
          maxResultsLayer3 := by
  by_cases hres : l2.results = []
  · exact ⟨⟨[], 0, 0, []⟩, by simp [layer3search, hres],
      by simp [hres, sortDesc]⟩
  · have hvs := vectorScoresOf_eq_vsList sqrtQ embs qv hdim l2.results
    simp only [layer3search, if_neg hres, hvs]
    refine ⟨_, rfl, ?_⟩
    have hcore : (combineScores l2.results
        (sortDesc VectorSearchResult.similarity
          (vsList sqrtQ embs qv l2.results))).map
        (fun r => (r.id, r.score)) =
        l2.results.map (fun r => (r.id, 6 / 10 * r.score +
          4 / 10 * cosOrZero sqrtQ embs qv r.id)) := by
      simp only [combineScores, List.map_map]
      refine List.map_congr_left ?_
      intro r hr
      have hsorted : ∀ v ∈ sortDesc VectorSearchResult.similarity
          (vsList sqrtQ embs qv l2.results),
          v.similarity = cosOrZero sqrtQ embs qv v.documentId := by
        intro v hv
        exact vsList_similarity sqrtQ embs qv l2.results v
          ((mem_sortDesc _ _ _).mp hv)
      have hget := mapGet_scoreMapFold (cosOrZero sqrtQ embs qv)
        (sortDesc VectorSearchResult.similarity
          (vsList sqrtQ embs qv l2.results)) hsorted [] r.id
      by_cases hmem : r.id ∈ (sortDesc VectorSearchResult.similarity
          (vsList sqrtQ embs qv l2.results)).map
          VectorSearchResult.documentId
      · simp only [Function.comp_apply]
        rw [hget, if_pos hmem]
        rfl
      · have hnone : mapGet embs r.id = none := by
          cases he : mapGet embs r.id with
          | none => rfl
          | some e =>
              exfalso
              apply hmem
              have hmem' := mem_vsList_ids sqrtQ embs qv l2.results r hr
                (by simp [he])
              obtain ⟨v, hv, hveq⟩ := List.mem_map.mp hmem'
              exact List.mem_map.mpr ⟨v, (mem_sortDesc _ _ _).mpr hv, hveq⟩
        simp only [Function.comp_apply]
        rw [hget, if_neg hmem]
        simp [mapGet, cosOrZero, hnone]
    calc ((sortDesc SearchResult.score (combineScores l2.results
          (sortDesc VectorSearchResult.similarity
            (vsList sqrtQ embs qv l2.results)))).take
          maxResultsLayer3).map (fun r => (r.id, r.score))
        = ((sortDesc SearchResult.score (combineScores l2.results
            (sortDesc VectorSearchResult.similarity
              (vsList sqrtQ embs qv l2.results)))).map
            (fun r => (r.id, r.score))).take maxResultsLayer3 := by
          rw [List.map_take]
      _ = (sortDesc Prod.snd ((combineScores l2.results
            (sortDesc VectorSearchResult.similarity
              (vsList sqrtQ embs qv l2.results))).map
            (fun r => (r.id, r.score)))).take maxResultsLayer3 := by
          rw [map_sortDesc SearchResult.score Prod.snd _ (fun x => rfl)]
      _ = (sortDesc Prod.snd (l2.results.map (fun r =>
            (r.id, 6 / 10 * r.score +
              4 / 10 * cosOrZero sqrtQ embs qv r.id)))).take
            maxResultsLayer3 := by rw [hcore]

/-- Witness for C3 at a two-result stage-2 output where only `d1` has a
stored (dimension-2) vector. -/
theorem c3_score_fusion_witness :
    ∃ out, layer3search exSqrt exEmb [1, 0] exLayer2Result = some out ∧
      out.results.map (fun r => (r.id, r.score)) =
        (sortDesc Prod.snd (exLayer2Result.results.map (fun r =>
          (r.id, 6 / 10 * r.score +
            4 / 10 * cosOrZero exSqrt exEmb [1, 0] r.id)))).take
          maxResultsLayer3 :=
  c3_score_fusion exSqrt exEmb [1, 0] exLayer2Result (by
    intro id e h
    simp only [exEmb, mapGet] at h
    split_ifs at h with hid
    injection h with h'
    rw [← h'])

/-! ### Lemmas: stage-4 identity -/

theorem sortedDesc_map {α β : Type} (key : β → ℚ) (key' : α → ℚ)
    (f : α → β) {l : List α} (h : SortedDesc key' l)
    (hf : ∀ x ∈ l, key (f x) = key' x) : SortedDesc key (l.map f) := by
  induction l with
  | nil => simp [SortedDesc]
  | cons x xs ih =>
      rw [List.map_cons]
      rcases List.chain'_cons'.mp h with ⟨hhead, htail⟩
      refine List.chain'_cons'.mpr
        ⟨?_, ih htail (fun y hy => hf y (List.mem_cons_of_mem x hy))⟩
      intro b hb
      cases xs with
      | nil => simp at hb
      | cons y ys =>
          simp only [List.map_cons, List.head?_cons, Option.mem_def,
            Option.some.injEq] at hb
          subst hb
          rw [hf x (List.mem_cons_self x _),
            hf y (List.mem_cons_of_mem x (List.mem_cons_self y ys))]
          exact hhead y rfl

/-- Claim C7: with no userId, no context, and all temporal boosts zero,
stage 4 leaves scores and relative order unchanged up to the final top-K
truncation. -/
theorem c7_personalization_identity (dist : ℚ × ℚ → ℚ × ℚ → ℚ) (tc : TimeCtx)
    (profiles : List (String × UserProfile)) (request : SearchRequest)
    (l3 : Layer3Result) (huser : request.userId = none)
    (hctx : request.context = none)
    (hboost : ∀ r ∈ l3.results, temporalBoostOf tc r = 0)
    (hsorted : SortedDesc SearchResult.score l3.results) :
    (personalize dist tc profiles request l3).results.map
        (fun r => (r.id, r.score)) =
      (l3.results.take maxFinalResults).map (fun r => (r.id, r.score)) := by
  by_cases hres : l3.results = []
  · simp [personalize, hres]
  · have hfscore : ∀ r ∈ l3.results,
        r.score + r.score * temporalBoostOf tc r * temporalWeight =
          r.score := by
      intro r hr
      rw [hboost r hr]
      ring
    have hsorted2 : SortedDesc SearchResult.score
        (applyTemporalPersonalization tc l3.results) := by
      unfold applyTemporalPersonalization
      exact sortedDesc_map SearchResult.score SearchResult.score _ hsorted
        (fun x hx => by simpa using hfscore x hx)
    have hmap : (applyTemporalPersonalization tc l3.results).map
        (fun r => (r.id, r.score)) =
        l3.results.map (fun r => (r.id, r.score)) := by
      unfold applyTemporalPersonalization
      rw [List.map_map]
      exact List.map_congr_left (fun x hx => by simp [hfscore x hx])
    simp only [personalize, if_neg hres, huser, hctx]
    rw [sortDesc_eq_self _ hsorted2, List.map_take, hmap, ← List.map_take]

/-- Witness for C7 at a two-result stage-3 output with no metadata (hence
zero temporal boosts) and no personalization signals. -/
theorem c7_personalization_identity_witness :
    (personalize exDist ⟨0, 0, 0⟩ [] ⟨"q", none, none, none⟩
        exLayer3Result).results.map (fun r => (r.id, r.score)) =
      (exLayer3Result.results.take maxFinalResults).map
        (fun r => (r.id, r.score)) :=
  c7_personalization_identity exDist ⟨0, 0, 0⟩ [] ⟨"q", none, none, none⟩
    exLayer3Result rfl rfl
    (by
      intro r hr
      simp only [exLayer3Result, List.mem_cons, List.not_mem_nil,
        or_false] at hr
      rcases hr with rfl | rfl <;>
        simp [temporalBoostOf, exResult, exResultB])
    (by
      unfold SortedDesc exLayer3Result
      refine List.chain'_cons.mpr ⟨?_, List.chain'_singleton _⟩
      norm_num [exResult, exResultB])

/-! ### Lemmas: stage-1 and stage-2 document addition, pointwise -/

theorem setAdd_idem (s : List String) (x : String) :
    setAdd (setAdd s x) x = setAdd s x := by
  have hx : x ∈ setAdd s x := mem_setAdd.mpr (Or.inr rfl)
  unfold setAdd
  rw [if_pos (by simpa [setAdd] using hx)]

theorem entryAfterAdd_comp (docId : String) (k : Nat)
    (e : InvertedIndexEntry) :
    entryAfterAdd docId k (entryAfterAdd docId 1 e) =
      entryAfterAdd docId (k + 1) e := by
  unfold entryAfterAdd
  simp only [mapGet_mapSet_self, Option.getD_some, mapSet_mapSet_self,
    setAdd_idem]
  rw [show (mapGet e.termFrequency docId).getD 0 + 1 + k =
    (mapGet e.termFrequency docId).getD 0 + (k + 1) from by omega]

theorem l1AddStep_mapGet (docId t : String)
    (idx : List (String × InvertedIndexEntry)) (w : String) :
    mapGet (l1AddStep docId t idx) w =
      if t = w then
        some (entryAfterAdd docId 1 ((mapGet idx w).getD ⟨w, [], [], 0⟩))
      else mapGet idx w := by
  unfold l1AddStep
  cases he : mapGet idx t with
  | some e =>
      simp only [he, Option.isSome_some, if_true]
      by_cases hw : t = w
      · subst hw
        rw [mapGet_mapSet_self, he]
        simp [entryAfterAdd]
      · rw [if_neg hw, mapGet_mapSet_ne _ _ hw]
  | none =>
      simp only [he, Option.isSome_none, Bool.false_eq_true, if_false,
        mapGet_mapSet_self]
      by_cases hw : t = w
      · subst hw
        rw [mapGet_mapSet_self, he]
        simp [entryAfterAdd]
      · rw [if_neg hw, mapGet_mapSet_ne _ _ hw, mapGet_mapSet_ne _ _ hw]

theorem foldl_l1AddStep_mapGet (docId : String) (ts : List String)
    (idx : List (String × InvertedIndexEntry)) (w : String) :
    mapGet (ts.foldl (fun i t => l1AddStep docId t i) idx) w =
      if w ∈ ts then
        some (entryAfterAdd docId (ts.count w)
          ((mapGet idx w).getD ⟨w, [], [], 0⟩))
      else mapGet idx w := by
  induction ts generalizing idx with
  | nil => simp
  | cons t ts ih =>
      rw [List.foldl_cons, ih (l1AddStep docId t idx)]
      by_cases ht : t = w
      · subst ht
        by_cases hmem : t ∈ ts
        · rw [if_pos hmem, l1AddStep_mapGet, if_pos rfl, Option.getD_some,
            entryAfterAdd_comp, if_pos (List.mem_cons_self t ts),
            List.count_cons_self]
        · rw [if_neg hmem, l1AddStep_mapGet, if_pos rfl,
            if_pos (List.mem_cons_self t ts), List.count_cons_self,
            List.count_eq_zero.mpr hmem]
      · by_cases hmem : w ∈ ts
        · rw [if_pos hmem, l1AddStep_mapGet, if_neg ht,
            if_pos (List.mem_cons_of_mem t hmem),
            List.count_cons_of_ne (fun h => ht h.symm)]
        · rw [if_neg hmem, l1AddStep_mapGet, if_neg ht, if_neg (by
            rw [List.mem_cons]
            rintro (h | h)
            · exact ht h.symm
            · exact hmem h)]

theorem foldl_dfAdd_mapGet (ts : List String) (hnd : ts.Nodup)
    (m : List (String × Nat)) (w : String) :
    mapGet (ts.foldl (fun m t => mapSet m t ((mapGet m t).getD 0 + 1)) m)
        w =
      if w ∈ ts then some ((mapGet m w).getD 0 + 1) else mapGet m w := by
  induction ts generalizing m with
  | nil => simp
  | cons t ts ih =>
      rcases List.nodup_cons.mp hnd with ⟨htns, hnd'⟩
      simp only [List.foldl_cons, ih hnd', List.mem_cons]
      by_cases hmem : w ∈ ts
      · have hw : w ≠ t := fun h => htns (h ▸ hmem)
        rw [if_pos hmem, if_pos (Or.inr hmem),
          mapGet_mapSet_ne _ _ (fun h => hw h.symm)]
      · by_cases ht : w = t
        · subst ht
          rw [if_neg hmem, if_pos (Or.inl rfl), mapGet_mapSet_self]
        · rw [if_neg hmem, if_neg (by
            rintro (h | h)
            · exact ht h
            · exact hmem h), mapGet_mapSet_ne _ _ (fun h => ht h.symm)]

/-- Claim C9: adding a document whose id is already stored overwrites the
stored copy but still increments the stage-1 and stage-2 document counts and
re-adds its tokens, so the reported counts exceed the number of distinct
stored documents, stage-1 term frequencies for that id grow by the token
counts again, and stage-2 document frequencies of its tokens grow by one
again. -/
theorem c9_duplicate_add (tok : String → List String) (st1 : Layer1State)
    (st2 : Layer2State) (d : Document) (stored1 stored2 : Document)
    (h1 : mapGet st1.documents d.id = some stored1)
    (h2 : mapGet st2.documents d.id = some stored2)
    (hc1 : ((uniq (mapKeys st1.documents)).length : ℤ) ≤ st1.documentCount)
    (hc2 : ((uniq (mapKeys st2.documents)).length : ℤ) ≤
      st2.totalDocuments) :
    (addDocumentL1 tok st1 d).documentCount = st1.documentCount + 1 ∧
    mapKeys (addDocumentL1 tok st1 d).documents = mapKeys st1.documents ∧
    mapGet (addDocumentL1 tok st1 d).documents d.id = some d ∧
    ((uniq (mapKeys (addDocumentL1 tok st1 d).documents)).length : ℤ) <
      (addDocumentL1 tok st1 d).documentCount ∧
    (∀ w, tfL1 (addDocumentL1 tok st1 d) w d.id =
      tfL1 st1 w d.id + (docTokensL1 tok d).count w) ∧
    (addDocumentL2 tok st2 d).totalDocuments = st2.totalDocuments + 1 ∧
    mapKeys (addDocumentL2 tok st2 d).documents = mapKeys st2.documents ∧
    mapGet (addDocumentL2 tok st2 d).documents d.id = some d ∧
    ((uniq (mapKeys (addDocumentL2 tok st2 d).documents)).length : ℤ) <
      (addDocumentL2 tok st2 d).totalDocuments ∧
    (∀ w, w ∈ docTokensL2 tok d →
      (mapGet (addDocumentL2 tok st2 d).termDocumentFrequency w).getD 0 =
        (mapGet st2.termDocumentFrequency w).getD 0 + 1) := by
  have hkeys1 : mapKeys (mapSet st1.documents d.id d) =
      mapKeys st1.documents :=
    mapKeys_mapSet_of_mem d (by simp [h1])
  have hkeys2 : mapKeys (mapSet st2.documents d.id d) =
      mapKeys st2.documents :=
    mapKeys_mapSet_of_mem d (by simp [h2])
  refine ⟨rfl, hkeys1, mapGet_mapSet_self _ _ _, ?_, ?_, rfl, hkeys2,
    mapGet_mapSet_self _ _ _, ?_, ?_⟩
  · show ((uniq (mapKeys (mapSet st1.documents d.id d))).length : ℤ) <
      st1.documentCount + 1
    rw [hkeys1]
    omega
  · intro w
    unfold tfL1 addDocumentL1
    rw [foldl_l1AddStep_mapGet]
    by_cases hmem : w ∈ docTokensL1 tok d
    · rw [if_pos hmem]
      cases he : mapGet st1.index w with
      | some e =>
          simp only [he, Option.getD_some, entryAfterAdd,
            mapGet_mapSet_self, Option.getD_some]
      | none =>
          simp only [he, Option.getD_none, entryAfterAdd,
            mapGet_mapSet_self, Option.getD_some]
          simp [mapGet]
    · rw [if_neg hmem]
      have : (docTokensL1 tok d).count w = 0 :=
        List.count_eq_zero.mpr hmem
      rw [this]
      cases mapGet st1.index w <;> rfl
  · show ((uniq (mapKeys (mapSet st2.documents d.id d))).length : ℤ) <
      st2.totalDocuments + 1
    rw [hkeys2]
    omega
  · intro w hw
    unfold addDocumentL2
    simp only
    rw [foldl_dfAdd_mapGet (uniq (docTokensL2 tok d))
      (uniq_nodup _) _ w, if_pos ((mem_uniq _ _).mpr hw)]
    rfl

/-- Witness for C9: re-adding `exDocA` to an index that already holds it. -/
theorem c9_duplicate_add_witness :
    (addDocumentL1 exTok (addDocumentL1 exTok emptyL1 exDocA)
        exDocA).documentCount =
      (addDocumentL1 exTok emptyL1 exDocA).documentCount + 1 ∧
    ((uniq (mapKeys (addDocumentL1 exTok (addDocumentL1 exTok emptyL1 exDocA)
        exDocA).documents)).length : ℤ) <
      (addDocumentL1 exTok (addDocumentL1 exTok emptyL1 exDocA)
        exDocA).documentCount := by
  obtain ⟨hcount, -, -, hexceed, -⟩ :=
    c9_duplicate_add exTok (addDocumentL1 exTok emptyL1 exDocA)
      (addDocumentL2 exTok emptyL2 exDocA) exDocA exDocA exDocA
      (by decide) (by decide) (by decide) (by decide)
  exact ⟨hcount, hexceed⟩

/-! ### Claim C2: stage-2 BM25 ranking -/

/-- Counterexample to claim C2 as stated: in a one-document corpus the query
term's idf is ln(1/3) < 0, so the document's total BM25 score is negative —
nonzero — yet the code omits it (`totalScore > 0`), while the claimed
ranking (omit only zero scores) retains it. -/
theorem c2_counterexample :
    ¬ ((layer2search exLn exTok cexL2 "foo" ["d1"]).results.map
        (fun r => (r.id, r.score)) =
      bm25RankingZeroOmitted exLn exTok cexL2 "foo" ["d1"]) := by
  have htok : exTok "foo" = ["foo"] := by decide
  have htf : getTermFrequency exTok cexL2 "foo" "d1" = 1 := by decide
  have hdf : mapGet cexL2.termDocumentFrequency "foo" = some 1 := by decide
  have hdl : mapGet cexL2.documentLengths "d1" = some 1 := by decide
  have hcontrib : bm25TermContribution exLn exTok cexL2 "d1" "foo" = -1 := by
    simp only [bm25TermContribution, htf, hdf, hdl, Option.getD_some]
    norm_num [cexL2, exLn]
  have hscores : calculateBM25Scores exLn exTok cexL2 ["foo"] ["d1"] = [] := by
    have hfold : (["foo"].foldl (bm25TermStep exLn exTok cexL2
        ((mapGet cexL2.documentLengths "d1").getD 0 : ℚ) "d1") (0, [])).1 =
        -1 := by
      rw [foldl_bm25TermStep_fst]
      simp [bm25SpecScore, hcontrib]
    simp only [calculateBM25Scores, hfold]
    norm_num
  have hlhs : (layer2search exLn exTok cexL2 "foo" ["d1"]).results = [] := by
    simp [layer2search, htok, hscores, sortDesc]
  have hspec : bm25SpecScore exLn exTok cexL2 ["foo"] "d1" = -1 := by
    simp [bm25SpecScore, hcontrib]
  have hrhs : bm25RankingZeroOmitted exLn exTok cexL2 "foo" ["d1"] =
      [("d1", -1)] := by
    simp only [bm25RankingZeroOmitted, htok]
    rw [if_neg (by simp)]
    simp [hspec, sortDesc, insertDesc, maxResultsLayer2]
  rw [hlhs, hrhs]
  simp

/-- Claim C2 as amended: the stage-2 score of each candidate equals the spec
BM25 sum (over query tokens with positive tf and df), candidates whose total
score is not positive — zero or negative — are omitted, and the rest are
sorted by score descending and truncated to `maxResultsLayer2`. -/
theorem c2_bm25_ranking_amended (lnQ : ℚ → ℚ) (tok : String → List String)
    (st : Layer2State) (query : String) (ids : List String)
    (hids : ∀ k doc, mapGet st.documents k = some doc → doc.id = k) :
    (layer2search lnQ tok st query ids).results.map
        (fun r => (r.id, r.score)) =
      bm25RankingPositive lnQ tok st query ids := by
  by_cases hguard : tok query = [] ∨ ids = []
  · simp [layer2search, bm25RankingPositive, hguard]
  · simp only [layer2search, bm25RankingPositive, if_neg hguard]
    rw [List.map_map]
    have hpair : ∀ s ∈ (sortDesc BM25Score.score
        (calculateBM25Scores lnQ tok st (tok query) ids)).take
          maxResultsLayer2,
        ((fun r => (r.id, r.score)) ∘ materializeResult st) s =
          (s.documentId, s.score) := by
      intro s hs
      obtain ⟨⟨doc, hdoc⟩, -, -⟩ :=
        calculateBM25Scores_score_eq lnQ tok st (tok query) ids s
          ((mem_sortDesc _ _ _).mp (List.take_subset _ _ hs))
      simp [materializeResult, hdoc, hids s.documentId doc hdoc]
    rw [List.map_congr_left hpair, List.map_take,
      map_sortDesc BM25Score.score Prod.snd _ (fun x => rfl),
      calculateBM25Scores_map_pair]

/-- Witness for the amended C2 at the concrete negative-idf corpus. -/
theorem c2_bm25_ranking_amended_witness :
    (layer2search exLn exTok cexL2 "foo" ["d1"]).results.map
        (fun r => (r.id, r.score)) =
      bm25RankingPositive exLn exTok cexL2 "foo" ["d1"] :=
  c2_bm25_ranking_amended exLn exTok cexL2 "foo" ["d1"] (by
    intro k doc h
    simp only [cexL2, mapGet] at h
    split_ifs at h with hk
    injection h with h'
    subst h'
    exact hk)

/-! ### Lemmas: map keys, nodup preservation, deletion -/

theorem isSome_mapGet_of_mem {α : Type} {m : List (String × α)} {k : String}
    (h : k ∈ mapKeys m) : (mapGet m k).isSome := by
  induction m with
  | nil => simp [mapKeys] at h
  | cons p rest ih =>
      obtain ⟨k', v⟩ := p
      by_cases hk : k' = k
      · simp [mapGet, hk]
      · simp only [mapKeys, List.map_cons, List.mem_cons] at h
        rcases h with h | h
        · exact absurd h.symm hk
        · simp only [mapGet, if_neg hk]
          exact ih (by simpa [mapKeys] using h)

theorem not_mem_keys_of_mapGet_none {α : Type} {m : List (String × α)}
    {k : String} (h : mapGet m k = none) : k ∉ mapKeys m := by
  intro hm
  have := isSome_mapGet_of_mem hm
  rw [h] at this
  simp at this

theorem mapKeys_mapSet_of_none {α : Type} {m : List (String × α)}
    {k : String} (v : α) (h : mapGet m k = none) :
    mapKeys (mapSet m k v) = mapKeys m ++ [k] := by
  induction m with
  | nil => simp [mapSet, mapKeys]
  | cons p rest ih =>
      obtain ⟨k', v'⟩ := p
      by_cases hk : k' = k
      · simp [mapGet, hk] at h
      · simp only [mapGet, if_neg hk] at h
        have := ih h
        simp only [mapKeys] at this ⊢
        simp [mapSet, hk, this]

theorem nodup_mapKeys_mapSet {α : Type} (m : List (String × α)) (k : String)
    (v : α) (h : (mapKeys m).Nodup) : (mapKeys (mapSet m k v)).Nodup := by
  cases he : mapGet m k with
  | some w =>
      rw [mapKeys_mapSet_of_mem v (by simp [he])]
      exact h
  | none =>
      rw [mapKeys_mapSet_of_none v he]
      simp [List.nodup_append, h, not_mem_keys_of_mapGet_none he]

theorem mapDelete_sublist {α : Type} (m : List (String × α)) (k : String) :
    List.Sublist (mapDelete m k) m := by
  induction m with
  | nil => simp [mapDelete]
  | cons p rest ih =>
      obtain ⟨k', v⟩ := p
      by_cases h : k' = k
      · simp only [mapDelete, if_pos h]
        exact List.sublist_cons_self _ _
      · simp only [mapDelete, if_neg h]
        exact ih.cons₂ _

theorem nodup_mapKeys_mapDelete {α : Type} (m : List (String × α))
    (k : String) (h : (mapKeys m).Nodup) :
    (mapKeys (mapDelete m k)).Nodup :=
  h.sublist ((mapDelete_sublist m k).map Prod.fst)

theorem mapGet_mapDelete_ne {α : Type} (m : List (String × α)) {k w : String}
    (h : k ≠ w) : mapGet (mapDelete m k) w = mapGet m w := by
  induction m with
  | nil => rfl
  | cons p rest ih =>
      obtain ⟨k', v⟩ := p
      by_cases hk : k' = k
      · subst hk
        simp [mapDelete, mapGet, h]
      · simp [mapDelete, mapGet, hk, ih]

/-! ### Lemmas: stage-1 removal, pointwise on entry sketches -/

theorem entrySketch_optEntryRemove (docId : String)
    (o : Option InvertedIndexEntry) :
    entrySketch (optEntryRemove docId o) = remSketch docId (entrySketch o) := by
  cases o with
  | none => rfl
  | some e =>
      simp only [optEntryRemove, entrySketch, remSketch]
      by_cases h : (e.documentIds.erase docId).length = 0 <;> simp [h]

theorem remSketch_idem (docId : String) (o : Option (List String × Nat))
    (h : ∀ ids df, o = some (ids, df) → ids.count docId ≤ 1) :
    remSketch docId (remSketch docId o) = remSketch docId o := by
  cases o with
  | none => rfl
  | some p =>
      obtain ⟨ids, df⟩ := p
      have hcount : ids.count docId ≤ 1 := h ids df rfl
      simp only [remSketch]
      by_cases hz : (ids.erase docId).length = 0
      · simp [hz, remSketch]
      · simp only [hz, if_false, remSketch]
        have hnotmem : docId ∉ ids.erase docId := by
          rw [← List.count_eq_zero, List.count_erase_self]
          omega
        rw [List.erase_of_not_mem hnotmem]
        simp [hz]

theorem l1RemoveStep_mapGet (docId t : String)
    (idx : List (String × InvertedIndexEntry))
    (hnd : (mapKeys idx).Nodup) (w : String) :
    mapGet (l1RemoveStep docId t idx) w =
      if t = w then optEntryRemove docId (mapGet idx t) else mapGet idx w := by
  unfold l1RemoveStep
  by_cases hw : t = w
  · subst hw
    rw [if_pos rfl]
    cases he : mapGet idx t with
    | none => simp [he, optEntryRemove]
    | some e =>
        simp only [he, optEntryRemove]
        by_cases hz : ((e.documentIds.erase docId).length = 0)
        · rw [if_pos hz, if_pos hz, mapGet_mapDelete_self hnd]
        · rw [if_neg hz, if_neg hz, mapGet_mapSet_self]
  · rw [if_neg hw]
    cases he : mapGet idx t with
    | none => rfl
    | some e =>
        simp only [he]
        by_cases hz : ((e.documentIds.erase docId).length = 0)
        · rw [if_pos hz, mapGet_mapDelete_ne _ hw]
        · rw [if_neg hz, mapGet_mapSet_ne _ _ hw]

theorem nodup_l1RemoveStep (docId t : String)
    (idx : List (String × InvertedIndexEntry))
    (hnd : (mapKeys idx).Nodup) :
    (mapKeys (l1RemoveStep docId t idx)).Nodup := by
  unfold l1RemoveStep
  cases he : mapGet idx t with
  | none => exact hnd
  | some e =>
      simp only [he]
      by_cases hz : ((e.documentIds.erase docId).length = 0)
      · rw [if_pos hz]
        exact nodup_mapKeys_mapDelete idx t hnd
      · rw [if_neg hz]
        exact nodup_mapKeys_mapSet idx t _ hnd

theorem foldl_l1RemoveStep_sketch (docId : String) (ts : List String)
    (idx : List (String × InvertedIndexEntry))
    (hnd : (mapKeys idx).Nodup)
    (hone : ∀ w e, mapGet idx w = some e → e.documentIds.count docId ≤ 1)
    (w : String) :
    entrySketch (mapGet (ts.foldl (fun i t => l1RemoveStep docId t i) idx) w) =
      if w ∈ ts then remSketch docId (entrySketch (mapGet idx w))
      else entrySketch (mapGet idx w) := by
  induction ts generalizing idx with
  | nil => simp
  | cons t ts ih =>
      have hnd' := nodup_l1RemoveStep docId t idx hnd
      have hone' : ∀ w' e, mapGet (l1RemoveStep docId t idx) w' = some e →
          e.documentIds.count docId ≤ 1 := by
        intro w' e he
        rw [l1RemoveStep_mapGet docId t idx hnd w'] at he
        by_cases ht : t = w'
        · rw [if_pos ht] at he
          cases ho : mapGet idx t with
          | none => rw [ho] at he; exact absurd he (by simp [optEntryRemove])
          | some e0 =>
              rw [ho] at he
              simp only [optEntryRemove] at he
              by_cases hz : ((e0.documentIds.erase docId).length = 0)
              · rw [if_pos hz] at he
                cases he
              · rw [if_neg hz] at he
                injection he with he'
                rw [← he']
                calc (e0.documentIds.erase docId).count docId
                    ≤ e0.documentIds.count docId :=
                      (List.erase_sublist docId e0.documentIds).count_le docId
                  _ ≤ 1 := hone t e0 ho
        · rw [if_neg ht] at he
          exact hone w' e he
      rw [List.foldl_cons, ih (l1RemoveStep docId t idx) hnd' hone']
      by_cases ht : t = w
      · subst ht
        have hcnt : ∀ ids df, entrySketch (mapGet idx t) = some (ids, df) →
            ids.count docId ≤ 1 := by
          intro ids df hsk
          cases ho : mapGet idx t with
          | none => rw [ho] at hsk; exact absurd hsk (by simp [entrySketch])
          | some e =>
              rw [ho] at hsk
              simp only [entrySketch, Option.some.injEq, Prod.mk.injEq]
                at hsk
              rcases hsk with ⟨hids, -⟩
              rw [← hids]
              exact hone t e ho
        by_cases hmem : t ∈ ts
        · rw [if_pos hmem, if_pos (List.mem_cons_self t ts),
            l1RemoveStep_mapGet docId t idx hnd t, if_pos rfl,
            entrySketch_optEntryRemove, remSketch_idem docId _ hcnt]
        · rw [if_neg hmem, if_pos (List.mem_cons_self t ts),
            l1RemoveStep_mapGet docId t idx hnd t, if_pos rfl,
            entrySketch_optEntryRemove]
      · by_cases hmem : w ∈ ts
        · rw [if_pos hmem, if_pos (List.mem_cons_of_mem t hmem),
            l1RemoveStep_mapGet docId t idx hnd w, if_neg ht]
        · rw [if_neg hmem, if_neg (by
            rw [List.mem_cons]
            rintro (h | h)
            · exact ht h.symm
            · exact hmem h),
            l1RemoveStep_mapGet docId t idx hnd w, if_neg ht]

/-! ### Lemmas: stage-2 document-frequency removal, pointwise -/

theorem mapDelete_of_mapGet_none {α : Type} {m : List (String × α)}
    {k : String} (h : mapGet m k = none) : mapDelete m k = m := by
  induction m with
  | nil => rfl
  | cons p rest ih =>
      obtain ⟨k', v⟩ := p
      by_cases hk : k' = k
      · simp [mapGet, hk] at h
      · simp only [mapGet, if_neg hk] at h
        simp [mapDelete, hk, ih h]

theorem l2DfRemoveStep_mapGet (m : List (String × Nat)) (t : String)
    (hnd : (mapKeys m).Nodup) (w : String) :
    mapGet (l2DfRemoveStep m t) w =
      if t = w then remDf (mapGet m t) else mapGet m w := by
  unfold l2DfRemoveStep
  cases he : mapGet m t with
  | none =>
      simp only [he, Option.getD_none, remDf]
      rw [if_neg (by omega), mapDelete_of_mapGet_none he]
      by_cases hw : t = w
      · subst hw
        rw [if_pos rfl, he]
      · rw [if_neg hw]
  | some k =>
      simp only [he, Option.getD_some, remDf]
      by_cases hk : 1 < k
      · rw [if_pos hk, if_pos hk]
        by_cases hw : t = w
        · subst hw
          rw [if_pos rfl, mapGet_mapSet_self]
        · rw [if_neg hw, mapGet_mapSet_ne _ _ hw]
      · rw [if_neg hk, if_neg hk]
        by_cases hw : t = w
        · subst hw
          rw [if_pos rfl, mapGet_mapDelete_self hnd]
        · rw [if_neg hw, mapGet_mapDelete_ne _ hw]

theorem nodup_l2DfRemoveStep (m : List (String × Nat)) (t : String)
    (hnd : (mapKeys m).Nodup) : (mapKeys (l2DfRemoveStep m t)).Nodup := by
  unfold l2DfRemoveStep
  by_cases hk : 1 < (mapGet m t).getD 0
  · rw [if_pos hk]
    exact nodup_mapKeys_mapSet m t _ hnd
  · rw [if_neg hk]
    exact nodup_mapKeys_mapDelete m t hnd

theorem foldl_l2DfRemoveStep_mapGet (ts : List String) (hndts : ts.Nodup)
    (m : List (String × Nat)) (hnd : (mapKeys m).Nodup) (w : String) :
    mapGet (ts.foldl l2DfRemoveStep m) w =
      if w ∈ ts then remDf (mapGet m w) else mapGet m w := by
  induction ts generalizing m with
  | nil => simp
  | cons t ts ih =>
      rcases List.nodup_cons.mp hndts with ⟨htns, hnd'⟩
      rw [List.foldl_cons, ih hnd' (l2DfRemoveStep m t)
        (nodup_l2DfRemoveStep m t hnd)]
      by_cases hmem : w ∈ ts
      · have hw : ¬ t = w := fun h => htns (h ▸ hmem)
        rw [if_pos hmem, if_pos (List.mem_cons_of_mem t hmem),
          l2DfRemoveStep_mapGet m t hnd w, if_neg hw]
      · by_cases ht : t = w
        · subst ht
          rw [if_neg hmem, if_pos (List.mem_cons_self t ts),
            l2DfRemoveStep_mapGet m t hnd t, if_pos rfl]
        · rw [if_neg hmem, if_neg (by
            rw [List.mem_cons]
            rintro (h | h)
            · exact ht h.symm
            · exact hmem h),
            l2DfRemoveStep_mapGet m t hnd w, if_neg ht]

theorem nodup_l1AddStep (docId t : String)
    (idx : List (String × InvertedIndexEntry))
    (hnd : (mapKeys idx).Nodup) :
    (mapKeys (l1AddStep docId t idx)).Nodup := by
  unfold l1AddStep
  cases he : mapGet idx t with
  | none =>
      simp only [he, Option.isSome_none, Bool.false_eq_true, if_false,
        mapGet_mapSet_self]
      exact nodup_mapKeys_mapSet _ t _ (nodup_mapKeys_mapSet idx t _ hnd)
  | some e =>
      simp only [he, Option.isSome_some, if_true]
      exact nodup_mapKeys_mapSet idx t _ hnd

theorem nodup_foldl_l1AddStep (docId : String) (ts : List String)
    (idx : List (String × InvertedIndexEntry))
    (hnd : (mapKeys idx).Nodup) :
    (mapKeys (ts.foldl (fun i t => l1AddStep docId t i) idx)).Nodup := by
  induction ts generalizing idx with
  | nil => exact hnd
  | cons t ts ih =>
      rw [List.foldl_cons]
      exact ih _ (nodup_l1AddStep docId t idx hnd)

theorem nodup_foldl_dfAdd (ts : List String) (m : List (String × Nat))
    (hnd : (mapKeys m).Nodup) :
    (mapKeys (ts.foldl
      (fun m t => mapSet m t ((mapGet m t).getD 0 + 1)) m)).Nodup := by
  induction ts generalizing m with
  | nil => exact hnd
  | cons t ts ih =>
      rw [List.foldl_cons]
      exact ih _ (nodup_mapKeys_mapSet m t _ hnd)

/-! ### Claim C1: add/remove round trip -/

theorem dfL1_eq_sketchDf (st : Layer1State) (w : String) :
    dfL1 st w = sketchDf (entrySketch (mapGet st.index w)) := by
  unfold dfL1 sketchDf entrySketch
  cases mapGet st.index w <;> rfl

theorem count_setAdd_le_one {s : List String} {x : String} (h : x ∉ s) :
    (setAdd s x).count x ≤ 1 := by
  unfold setAdd
  rw [if_neg h]
  simp [List.count_append, List.count_eq_zero.mpr h]

/-- Counterexample to claim C1 as stated: stage-1 `removeDocument` never
decrements the cumulative `totalTerms` counter, so after add(d); remove(d.id)
on an empty index the reported total-terms statistic is 2, not its pre-add
value 0. -/
theorem c1_counterexample :
    ((removeDocumentL1 exTok (addDocumentL1 exTok emptyL1 exDocA)
      exDocA.id).2).totalTerms ≠ emptyL1.totalTerms := by decide

/-- Claim C1 as amended: add(d) then remove(d.id) on a fresh id restores the
stage-1 document count, stored documents and per-term document frequencies,
and restores all stage-2 statistics (documents, lengths, document count,
average document length, term document frequencies) — but the stage-1
total-terms counter is left increased by the document's token count, so it
(and the average terms per document) is not restored. -/
theorem c1_add_remove_roundtrip (tok : String → List String)
    (st1 : Layer1State) (st2 : Layer2State) (d : Document)
    (h1fresh : mapGet st1.documents d.id = none)
    (h1nd : (mapKeys st1.index).Nodup)
    (h1ids : ∀ w e, mapGet st1.index w = some e → d.id ∉ e.documentIds)
    (h1df : ∀ w e, mapGet st1.index w = some e →
      e.documentFrequency = e.documentIds.length)
    (h2fresh : mapGet st2.documents d.id = none)
    (h2lenfresh : mapGet st2.documentLengths d.id = none)
    (h2nd : (mapKeys st2.termDocumentFrequency).Nodup)
    (h2df : ∀ w k, mapGet st2.termDocumentFrequency w = some k → 1 ≤ k)
    (h2avg : st2.averageDocumentLength =
      recomputeAverage st2.documentLengths st2.totalDocuments) :
    (removeDocumentL1 tok (addDocumentL1 tok st1 d) d.id).1 = true ∧
    (removeDocumentL1 tok (addDocumentL1 tok st1 d) d.id).2.documentCount =
      st1.documentCount ∧
    (removeDocumentL1 tok (addDocumentL1 tok st1 d) d.id).2.documents =
      st1.documents ∧
    (∀ w, dfL1 (removeDocumentL1 tok (addDocumentL1 tok st1 d) d.id).2 w =
      dfL1 st1 w) ∧
    (removeDocumentL1 tok (addDocumentL1 tok st1 d) d.id).2.totalTerms =
      st1.totalTerms + ((docTokensL1 tok d).length : ℤ) ∧
    (removeDocumentL2 tok (addDocumentL2 tok st2 d) d.id).1 = true ∧
    (removeDocumentL2 tok (addDocumentL2 tok st2 d) d.id).2.documents =
      st2.documents ∧
    (removeDocumentL2 tok (addDocumentL2 tok st2 d) d.id).2.documentLengths =
      st2.documentLengths ∧
    (removeDocumentL2 tok (addDocumentL2 tok st2 d) d.id).2.totalDocuments =
      st2.totalDocuments ∧
    (removeDocumentL2 tok
      (addDocumentL2 tok st2 d) d.id).2.averageDocumentLength =
      st2.averageDocumentLength ∧
    (∀ w, mapGet (removeDocumentL2 tok
        (addDocumentL2 tok st2 d) d.id).2.termDocumentFrequency w =
      mapGet st2.termDocumentFrequency w) := by
  have hnotmem1 : d.id ∉ mapKeys st1.documents :=
    not_mem_keys_of_mapGet_none h1fresh
  have ha1doc : mapGet (addDocumentL1 tok st1 d).documents d.id = some d := by
    simp only [addDocumentL1]
    exact mapGet_mapSet_self _ _ _
  have hr1 : removeDocumentL1 tok (addDocumentL1 tok st1 d) d.id =
      (true,
        { index := (docTokensL1 tok d).foldl
            (fun idx t => l1RemoveStep d.id t idx)
            (addDocumentL1 tok st1 d).index
          documentCount := (addDocumentL1 tok st1 d).documentCount - 1
          totalTerms := (addDocumentL1 tok st1 d).totalTerms
          documents := mapDelete (addDocumentL1 tok st1 d).documents
            d.id }) := by
    unfold removeDocumentL1
    rw [ha1doc]
  have hidx1 : (addDocumentL1 tok st1 d).index =
      (docTokensL1 tok d).foldl (fun i t => l1AddStep d.id t i) st1.index :=
    rfl
  have hnd1' : (mapKeys (addDocumentL1 tok st1 d).index).Nodup := by
    rw [hidx1]
    exact nodup_foldl_l1AddStep d.id _ _ h1nd
  have hone1 : ∀ w e, mapGet (addDocumentL1 tok st1 d).index w = some e →
      e.documentIds.count d.id ≤ 1 := by
    intro w e he
    rw [hidx1, foldl_l1AddStep_mapGet] at he
    by_cases hmem : w ∈ docTokensL1 tok d
    · rw [if_pos hmem] at he
      injection he with he'
      rw [← he']
      simp only [entryAfterAdd]
      cases ho : mapGet st1.index w with
      | some e1 =>
          simp only [Option.getD_some]
          exact count_setAdd_le_one (h1ids w e1 ho)
      | none =>
          simp only [Option.getD_none]
          exact count_setAdd_le_one (List.not_mem_nil d.id)
    · rw [if_neg hmem] at he
      have := h1ids w e he
      simp [List.count_eq_zero.mpr this]
  have hr1idx : (removeDocumentL1 tok (addDocumentL1 tok st1 d) d.id).2.index
      = (docTokensL1 tok d).foldl (fun idx t => l1RemoveStep d.id t idx)
        (addDocumentL1 tok st1 d).index := by
    rw [hr1]
  have hnotmem2 : d.id ∉ mapKeys st2.documents :=
    not_mem_keys_of_mapGet_none h2fresh
  have hnotmem2l : d.id ∉ mapKeys st2.documentLengths :=
    not_mem_keys_of_mapGet_none h2lenfresh
  have ha2doc : mapGet (addDocumentL2 tok st2 d).documents d.id =
      some d := by
    simp only [addDocumentL2]
    exact mapGet_mapSet_self _ _ _
  have hr2 : removeDocumentL2 tok (addDocumentL2 tok st2 d) d.id =
      (true,
        { documents := mapDelete (addDocumentL2 tok st2 d).documents d.id
          documentLengths := mapDelete
            (addDocumentL2 tok st2 d).documentLengths d.id
          averageDocumentLength := recomputeAverage
            (mapDelete (addDocumentL2 tok st2 d).documentLengths d.id)
            ((addDocumentL2 tok st2 d).totalDocuments - 1)
          termDocumentFrequency := (uniq (docTokensL2 tok d)).foldl
            l2DfRemoveStep
            (addDocumentL2 tok st2 d).termDocumentFrequency
          totalDocuments := (addDocumentL2 tok st2 d).totalDocuments - 1
          k1 := (addDocumentL2 tok st2 d).k1
          b := (addDocumentL2 tok st2 d).b }) := by
    unfold removeDocumentL2
    rw [ha2doc]
  have hdocsr : mapDelete (addDocumentL2 tok st2 d).documents d.id =
      st2.documents := by
    show mapDelete (mapSet st2.documents d.id d) d.id = st2.documents
    exact mapDelete_mapSet _ d hnotmem2
  have hlensr : mapDelete (addDocumentL2 tok st2 d).documentLengths d.id =
      st2.documentLengths := by
    show mapDelete (mapSet st2.documentLengths d.id
      (docTokensL2 tok d).length) d.id = st2.documentLengths
    exact mapDelete_mapSet _ _ hnotmem2l
  have htotr : (addDocumentL2 tok st2 d).totalDocuments - 1 =
      st2.totalDocuments := by
    show st2.totalDocuments + 1 - 1 = st2.totalDocuments
    omega
  have htdfr : ∀ w, mapGet ((uniq (docTokensL2 tok d)).foldl l2DfRemoveStep
      (addDocumentL2 tok st2 d).termDocumentFrequency) w =
      mapGet st2.termDocumentFrequency w := by
    intro w
    have htdfa : (addDocumentL2 tok st2 d).termDocumentFrequency =
        (uniq (docTokensL2 tok d)).foldl
          (fun m t => mapSet m t ((mapGet m t).getD 0 + 1))
          st2.termDocumentFrequency := rfl
    have hnd2' : (mapKeys
        (addDocumentL2 tok st2 d).termDocumentFrequency).Nodup := by
      rw [htdfa]
      exact nodup_foldl_dfAdd _ _ h2nd
    rw [foldl_l2DfRemoveStep_mapGet _ (uniq_nodup _) _ hnd2' w]
    by_cases hmem : w ∈ uniq (docTokensL2 tok d)
    · rw [if_pos hmem, htdfa,
        foldl_dfAdd_mapGet _ (uniq_nodup _) _ w, if_pos hmem]
      cases ho : mapGet st2.termDocumentFrequency w with
      | some k =>
          have hk := h2df w k ho
          simp only [Option.getD_some, remDf]
          rw [if_pos (by omega)]
          simp
      | none =>
          simp only [Option.getD_none, remDf]
          rw [if_neg (by omega)]
    · rw [if_neg hmem, htdfa,
        foldl_dfAdd_mapGet _ (uniq_nodup _) _ w, if_neg hmem]
  refine ⟨by rw [hr1], ?_, ?_, ?_, ?_, by rw [hr2], ?_, ?_, ?_, ?_, ?_⟩
  · rw [hr1]
    show (addDocumentL1 tok st1 d).documentCount - 1 = st1.documentCount
    show st1.documentCount + 1 - 1 = st1.documentCount
    omega
  · rw [hr1]
    show mapDelete (addDocumentL1 tok st1 d).documents d.id = st1.documents
    show mapDelete (mapSet st1.documents d.id d) d.id = st1.documents
    exact mapDelete_mapSet _ d hnotmem1
  · intro w
    rw [dfL1_eq_sketchDf, dfL1_eq_sketchDf, hr1idx,
      foldl_l1RemoveStep_sketch d.id _ _ hnd1' hone1 w]
    by_cases hmem : w ∈ docTokensL1 tok d
    · rw [if_pos hmem, hidx1, foldl_l1AddStep_mapGet, if_pos hmem]
      cases ho : mapGet st1.index w with
      | some e1 =>
          have hni := h1ids w e1 ho
          simp only [Option.getD_some, entrySketch, entryAfterAdd,
            remSketch, erase_setAdd hni]
          by_cases hz : e1.documentIds.length = 0
          · rw [if_pos hz]
            simp [sketchDf, h1df w e1 ho, hz]
          · rw [if_neg hz]
            simp [sketchDf, h1df w e1 ho]
      | none =>
          simp only [Option.getD_none, entrySketch, entryAfterAdd,
            remSketch]
          rw [erase_setAdd (List.not_mem_nil d.id)]
          simp [sketchDf]
    · rw [if_neg hmem, hidx1, foldl_l1AddStep_mapGet, if_neg hmem]
  · rw [hr1]
    show (addDocumentL1 tok st1 d).totalTerms =
      st1.totalTerms + ((docTokensL1 tok d).length : ℤ)
    rfl
  · rw [hr2]
    exact hdocsr
  · rw [hr2]
    exact hlensr
  · rw [hr2]
    exact htotr
  · rw [hr2]
    show recomputeAverage
      (mapDelete (addDocumentL2 tok st2 d).documentLengths d.id)
      ((addDocumentL2 tok st2 d).totalDocuments - 1) =
      st2.averageDocumentLength
    rw [hlensr, htotr]
    exact h2avg.symm
  · intro w
    rw [hr2]
    exact htdfr w

/-- Witness for the amended C1 on an empty index: document count and stage-2
state restored, stage-1 total terms left increased by the token count. -/
theorem c1_add_remove_roundtrip_witness :
    (removeDocumentL1 exTok (addDocumentL1 exTok emptyL1 exDocA)
      exDocA.id).2.documentCount = emptyL1.documentCount ∧
    (removeDocumentL1 exTok (addDocumentL1 exTok emptyL1 exDocA)
      exDocA.id).2.totalTerms =
      emptyL1.totalTerms + ((docTokensL1 exTok exDocA).length : ℤ) ∧
    (removeDocumentL2 exTok (addDocumentL2 exTok emptyL2 exDocA)
      exDocA.id).2.documents = emptyL2.documents := by
  obtain ⟨-, hcount, -, -, htt, -, hdocs2, -⟩ :=
    c1_add_remove_roundtrip exTok emptyL1 emptyL2 exDocA rfl
      (by simp [emptyL1, mapKeys])
      (by intro w e h; simp [emptyL1, mapGet] at h)
      (by intro w e h; simp [emptyL1, mapGet] at h)
      rfl rfl (by simp [emptyL2, mapKeys])
      (by intro w k h; simp [emptyL2, mapGet] at h)
      (by simp [emptyL2, recomputeAverage])
  exact ⟨hcount, htt, hdocs2⟩

end SearchSpec
